import Mathlib

/-!
Verification development for the task-uploader pipeline of this repository:
the section-marker parser (`split_content_into_dict`), the structured-payload
builder (`build_structured_payload_from_sections`), the suggestion formatter
(`format_todo_suggestion_text`) — all from `src/services/todoist_processing.py`
and their identical copies in `src/uploader_main.py` — and the `/todoist`
submission route `create_todoist_task` from `src/uploader_main.py`.

Text is modelled as `List Char` (`Str`); Python strings are translated at the
character level.  `str.strip` / `rstrip` are modelled over the ASCII whitespace
characters; `str.splitlines` is modelled as splitting on `'\n'` (the code never
feeds other line terminators through this pipeline).
-/

namespace TaskUploader

set_option maxRecDepth 40000

/-- Python strings, modelled as character lists. -/
abbrev Str := List Char

/-- Embed a Lean string literal as a `Str`. -/
def lit (s : String) : Str := s.data

/-- Python whitespace for `str.strip`/`rstrip` and regex `\s`, ASCII fragment. -/
def pyIsSpace (c : Char) : Bool :=
  c == ' ' || c == '\t' || c == '\n' || c == '\r' || c == '\x0b' || c == '\x0c'

/-- Python `str.lstrip()`. -/
def lstrip (s : Str) : Str := s.dropWhile pyIsSpace

/-- Python `str.rstrip()`. -/
def rstrip : Str → Str
  | [] => []
  | c :: cs =>
    let r := rstrip cs
    if r.isEmpty then (if pyIsSpace c then [] else [c]) else c :: r

/-- Python `str.strip()`. -/
def strip (s : Str) : Str := lstrip (rstrip s)

/-- Python `str.split(sep)` for a single-character separator. -/
def splitOnChar (sep : Char) : Str → List Str
  | [] => [[]]
  | c :: cs =>
    let r := splitOnChar sep cs
    if c == sep then [] :: r else (c :: r.headD []) :: r.tail

/-- Python `"\n".join(...)`. -/
def intercalateNl : List Str → Str
  | [] => []
  | [l] => l
  | l :: ls => l ++ '\n' :: intercalateNl ls

/-- Python `str.split('- ')`: split on each non-overlapping occurrence of
the two-character separator `"- "`, scanning left to right. -/
def splitOnDashSpace : Str → List Str
  | [] => [[]]
  | '-' :: ' ' :: rest => [] :: splitOnDashSpace rest
  | c :: rest =>
    let r := splitOnDashSpace rest
    (c :: r.headD []) :: r.tail

def digitChar (n : Nat) : Char := Char.ofNat (48 + n)

def natToStrAux : Nat → Nat → Str
  | 0, _ => []
  | fuel + 1, n => if n < 10 then [digitChar n] else natToStrAux fuel (n / 10) ++ [digitChar (n % 10)]

/-- Decimal rendering of a natural number (Python `str(int)` for `n ≥ 0`). -/
def natToStr (n : Nat) : Str := natToStrAux (n + 1) n

/-- Python `str(int)` / f-string interpolation of an integer. -/
def intToStr (n : Int) : Str := if n < 0 then '-' :: natToStr n.natAbs else natToStr n.natAbs

def natOfDigits (ds : Str) : Nat := ds.foldl (fun a c => a * 10 + (c.toNat - 48)) 0

/-- Python `int(s)` on an already-stripped string: optional sign followed by
decimal digits (digit-group underscores are not modelled). `none` models
`ValueError`. -/
def pyInt? (s : Str) : Option Int :=
  match s with
  | '-' :: ds => if !ds.isEmpty && ds.all (·.isDigit) then some (-(natOfDigits ds : Int)) else none
  | '+' :: ds => if !ds.isEmpty && ds.all (·.isDigit) then some ((natOfDigits ds : Int)) else none
  | ds => if !ds.isEmpty && ds.all (·.isDigit) then some ((natOfDigits ds : Int)) else none

/-! ## Python literal values (for `ast.literal_eval` on label text) -/

/-- A scalar Python literal: a string or an integer. -/
inductive PyScalar where
  | str (s : Str)
  | int (n : Int)
deriving DecidableEq

/-- Result of `ast.literal_eval`, restricted to the flat shapes the label
field can carry: a scalar, or a list/tuple of scalars. -/
inductive PyLit where
  | scalar (v : PyScalar)
  | list (xs : List PyScalar)
  | tuple (xs : List PyScalar)
deriving DecidableEq

/-- Python `repr` of a scalar.  For strings this is the single-quote form,
faithful for strings without quotes, backslashes or control characters. -/
def pyReprScalar : PyScalar → Str
  | .str s => '\'' :: (s ++ ['\''])
  | .int n => intToStr n

/-- Python `", ".join(...)`. -/
def joinCommaSpace : List Str → Str
  | [] => []
  | [x] => x
  | x :: xs => x ++ ',' :: ' ' :: joinCommaSpace xs

/-- Python `str` of a scalar. -/
def pyStrOfScalar : PyScalar → Str
  | .str s => s
  | .int n => intToStr n

/-- Python `str` of a literal value (`str` = `repr` for containers). -/
def pyStrOfLit : PyLit → Str
  | .scalar v => pyStrOfScalar v
  | .list xs => '[' :: (joinCommaSpace (xs.map pyReprScalar) ++ [']'])
  | .tuple [x] => '(' :: (pyReprScalar x ++ [',', ')'])
  | .tuple xs => '(' :: (joinCommaSpace (xs.map pyReprScalar) ++ [')'])

/-- Whitespace the Python tokenizer skips between expression tokens: space,
tab, form feed, and (inside brackets, via implicit line joining) newline and
carriage return.  Vertical tab is not tokenizer whitespace. -/
def pyTokWs (c : Char) : Bool :=
  c == ' ' || c == '\t' || c == '\n' || c == '\r' || c == '\x0c'

def skipTokWs (s : Str) : Str := s.dropWhile pyTokWs

/-- Scan a Python string literal body up to the closing quote `q`.  Raw
newlines and NUL are a syntax error in Python; backslash escapes are not
modelled (treated as parse failure). -/
def scanStrLit (q : Char) : Str → Option (Str × Str)
  | [] => none
  | c :: cs =>
    if c == q then some ([], cs)
    else if c == '\\' || c == '\n' || c == '\r' || c == '\x00' then none
    else (scanStrLit q cs).map (fun p => (c :: p.1, p.2))

/-- A valid decimal integer digit run: non-empty, and with no leading zero
unless every digit is zero (Python rejects `007` but accepts `00`). -/
def decDigitsOk (ds : Str) : Bool :=
  !ds.isEmpty && (ds.all (fun c => c == '0') || !(ds.headD '0' == '0'))

/-- Scan a signed decimal integer literal (no underscores, no leading
zeros before a nonzero digit, sign directly attached — as in Python's
own grammar for the inputs this fragment accepts). -/
def scanInt (s : Str) : Option (Int × Str) :=
  match s with
  | '-' :: rest =>
    let ds := rest.takeWhile (·.isDigit)
    if decDigitsOk ds then some (-(natOfDigits ds : Int), rest.drop ds.length) else none
  | '+' :: rest =>
    let ds := rest.takeWhile (·.isDigit)
    if decDigitsOk ds then some ((natOfDigits ds : Int), rest.drop ds.length) else none
  | rest =>
    let ds := rest.takeWhile (·.isDigit)
    if decDigitsOk ds then some ((natOfDigits ds : Int), rest.drop ds.length) else none

/-- Scan a scalar literal: a quoted string or an integer. -/
def scanScalar (s : Str) : Option (PyScalar × Str) :=
  match s with
  | '\'' :: rest => (scanStrLit '\'' rest).map (fun p => (.str p.1, p.2))
  | '"' :: rest => (scanStrLit '"' rest).map (fun p => (.str p.1, p.2))
  | _ => (scanInt s).map (fun p => (.int p.1, p.2))

/-- Scan a comma-separated sequence of scalars up to `close`.  Returns the
elements, whether a comma appeared, and the remaining input. -/
def scanItems (fuel : Nat) (close : Char) (s : Str) : Option (List PyScalar × Bool × Str) :=
  match fuel with
  | 0 => none
  | fuel + 1 =>
    match skipTokWs s with
    | [] => none
    | c :: rest =>
      if c == close then some ([], false, rest)
      else
        match scanScalar (c :: rest) with
        | none => none
        | some (v, r) =>
          match skipTokWs r with
          | [] => none
          | c2 :: r2 =>
            if c2 == close then some ([v], false, r2)
            else if c2 == ',' then
              match skipTokWs r2 with
              | [] => none
              | c3 :: r3 =>
                if c3 == close then some ([v], true, r3)
                else
                  match scanItems fuel close (c3 :: r3) with
                  | some (vs, _, r4) => some (v :: vs, true, r4)
                  | none => none
            else none

/-- Model of Python `ast.literal_eval` on the fragment of literal syntax
the label field's claims use: scalars and flat list/tuple displays of
escape-free quoted strings and plain signed decimal integers.  On this
fragment a `some` result agrees with Python in both shape and value.  All
other inputs — floats, dicts, sets, named constants, non-decimal or
underscored integers, nested containers, adjacent-string concatenation,
parenthesis-free tuples, escape sequences — are mapped to `none`; since
Python accepts some of those, theorems that rely on a parse *failure*
additionally guard the input to a class (quote-free, identifier-led text)
on which Python's parser fails as well. -/
def literal_eval (s : Str) : Option PyLit :=
  match skipTokWs s with
  | '[' :: rest =>
    (match scanItems (rest.length + 1) ']' rest with
     | some (xs, _, r) => if (skipTokWs r).isEmpty then some (.list xs) else none
     | none => none)
  | '(' :: rest =>
    (match scanItems (rest.length + 1) ')' rest with
     | some (xs, comma, r) =>
       if (skipTokWs r).isEmpty then
         match xs, comma with
         | [v], false => some (.scalar v)
         | _, _ => some (.tuple xs)
       else none
     | none => none)
  | t =>
    (match scanScalar t with
     | some (v, r) => if (skipTokWs r).isEmpty then some (.scalar v) else none
     | none => none)

/-- No single or double quote anywhere in the string. -/
def noQuoteChars (s : Str) : Bool :=
  s.all (fun c => !(c == '\'') && !(c == '"'))

/-- Characters of a Python identifier (ASCII fragment). -/
def identChar (c : Char) : Bool := c.isAlphanum || c == '_'

/-- The value starts with an identifier whose word is not one of the literal
constants `True`/`False`/`None`, and contains no quote characters anywhere.
No such text is a valid Python literal (its leading token is a name, and
without quotes no string prefix can rescue it), so `ast.literal_eval`
raises on it and the comma fallback runs. -/
def plainNameStart (s : Str) : Bool :=
  match s with
  | c :: _ =>
    (c.isAlpha || c == '_') &&
    (let w := s.takeWhile identChar
     !(w == lit "True") && !(w == lit "False") && !(w == lit "None")) &&
    noQuoteChars s
  | [] => false

/-- Printable-ASCII characters whose Python `repr` inside a string is the
character itself: codes 32..126 except quotes and backslash. -/
def plainChar (c : Char) : Bool :=
  32 ≤ c.toNat && c.toNat ≤ 126 && !(c == '\'') && !(c == '"') && !(c == '\\')

/-- Scalars whose Python `str`/`repr` the model renders faithfully. -/
def plainScalar : PyScalar → Bool
  | .str s => s.all plainChar
  | .int _ => true

/-! ## The section parser (`split_content_into_dict`) -/

/-- Lookup in an insertion-ordered string map (Python `dict.get`). -/
def dictGet? : List (Str × Str) → Str → Option Str
  | [], _ => none
  | (k', v) :: rest, k => if k' = k then some v else dictGet? rest k

/-- Assignment `m[k] = v` on an insertion-ordered string map (Python dict):
overwrite in place when the key exists, append otherwise. -/
def dictInsert : List (Str × Str) → Str → Str → List (Str × Str)
  | [], k, v => [(k, v)]
  | (k', v') :: rest, k, v =>
    if k' = k then (k, v) :: rest else (k', v') :: dictInsert rest k v

/-- The header regex `^!!(?P<key>[^!]+)!!(?::\s*(?P<inline>.*))?$` applied to
an already-stripped line: returns the key and the optional inline value. -/
def headerMatch? (s : Str) : Option (Str × Option Str) :=
  match s with
  | '!' :: '!' :: rest =>
    let key := rest.takeWhile (fun c => c != '!')
    if key.isEmpty then none
    else
      match rest.drop key.length with
      | '!' :: '!' :: tail =>
        (match tail with
         | [] => some (key, none)
         | ':' :: after => some (key, some (after.dropWhile pyIsSpace))
         | _ => none)
      | _ => none
  | _ => none

/-- Parser state: the result map, the currently open key, the body buffer. -/
structure ParseState where
  result : List (Str × Str)
  current : Option Str
  buffer : List Str
deriving DecidableEq

/-- The parser's `flush()`: join the buffer, strip, store under the open key
(if any), reset the buffer. -/
def flushState (st : ParseState) : ParseState :=
  match st.current with
  | some k =>
    { st with result := dictInsert st.result k (strip (intercalateNl st.buffer)), buffer := [] }
  | none => { st with buffer := [] }

/-- `buffer = [inline_value] if inline_value else []`. -/
def seedBuffer : Option Str → List Str
  | some v => if v.isEmpty then [] else [v]
  | none => []

/-- Process one raw line of input. -/
def stepLine (st : ParseState) (raw : Str) : ParseState :=
  match headerMatch? (strip raw) with
  | some (key, inline) =>
    let st1 := flushState st
    { st1 with current := some (strip key), buffer := seedBuffer inline }
  | none =>
    match st.current with
    | some _ => { st with buffer := st.buffer ++ [rstrip raw] }
    | none => st

def runLines (st : ParseState) (ls : List Str) : ParseState := ls.foldl stepLine st

def initState : ParseState := ⟨[], none, []⟩

/-- Run the parser over a list of lines and flush the final section. -/
def parseLines (ls : List Str) : List (Str × Str) := (flushState (runLines initState ls)).result

/-- `split_content_into_dict` from `src/services/todoist_processing.py`
(lines 66-95; identical copy in `src/uploader_main.py` lines 165-201). -/
def split_content_into_dict (content : Str) : List (Str × Str) :=
  if content.isEmpty then [] else parseLines (splitOnChar '\n' content)

/-! ## The structured-payload builder -/

/-- `value.strip() if value and value.strip() else None`. -/
def strip_or_none : Option Str → Option Str
  | some s => if (strip s).isEmpty then none else some (strip s)
  | none => none

/-- One iteration of the task-block loop: skip blank lines, strip a single
leading `-` marker and surrounding whitespace. -/
def buildTaskLine (line : Str) : Option Str :=
  match strip line with
  | [] => none
  | '-' :: rest => some (strip rest)
  | c :: rest => some (c :: rest)

/-- The task list the builder derives from the raw `Tasks` block. -/
def buildTasks (block : Str) : List Str := (splitOnChar '\n' block).filterMap buildTaskLine

/-- The comma fallback for labels: split on `','`, strip, drop empties. -/
def commaSplitLabels (raw : Str) : List Str :=
  (splitOnChar ',' raw).filterMap (fun p => if (strip p).isEmpty then none else some (strip p))

/-- `structured["priority"]`: an integer, or the raw string on `ValueError`. -/
inductive PriorityVal where
  | int (n : Int)
  | str (s : Str)
deriving DecidableEq

/-- The structured payload: absent keys are `none`. -/
structure StructuredPayload where
  project : Option Str := none
  task_summary : Option Str := none
  tasks : Option (List Str) := none
  priority : Option PriorityVal := none
  due_date : Option Str := none
  labels : Option (List Str) := none
  project_id : Option Str := none
deriving DecidableEq

/-- The labels branch of the builder, applied to the stripped raw value. -/
def buildLabels (raw : Str) : Option (List Str) :=
  match literal_eval raw with
  | some (.list xs) => some (xs.map pyStrOfScalar)
  | some v => some [pyStrOfLit v]
  | none =>
    let ls := commaSplitLabels raw
    if ls.isEmpty then none else some ls

/-- `build_structured_payload_from_sections` from
`src/services/todoist_processing.py` lines 98-152 (identical copy in
`src/uploader_main.py` lines 204-263). -/
def build_structured_payload_from_sections (sections : List (Str × Str)) : StructuredPayload :=
  let project := strip_or_none (dictGet? sections (lit "Project"))
  let task_summary := strip_or_none (dictGet? sections (lit "Task Summary"))
  let tasks :=
    match dictGet? sections (lit "Tasks") with
    | some block =>
      if block.isEmpty then none
      else
        let ts := buildTasks block
        if ts.isEmpty then none else some ts
    | none => none
  let priority :=
    match strip_or_none (dictGet? sections (lit "Priority")) with
    | some pr =>
      some (match pyInt? pr with
            | some n => PriorityVal.int n
            | none => PriorityVal.str pr)
    | none => none
  let due_date := strip_or_none (dictGet? sections (lit "Due Date"))
  let labels :=
    match strip_or_none (dictGet? sections (lit "Labels")) with
    | some raw => buildLabels raw
    | none => none
  { project, task_summary, tasks, priority, due_date, labels, project_id := none }

/-! ## The suggestion formatter -/

/-- The `TodoSuggestion` model from `src/todo_suggestions.py`. -/
structure TodoSuggestion where
  project : Str
  task_summary : Str
  tasks : List Str
  priority : Int
  due_date : Str
  labels : List Str
deriving DecidableEq

/-- Python `str` of a list of strings (f-string interpolation of
`suggestion.labels`); faithful for labels without quotes, backslashes or
control characters. -/
def pyStrOfStrList (xs : List Str) : Str :=
  '[' :: (joinCommaSpace (xs.map (fun s => pyReprScalar (.str s))) ++ [']'])

/-- `format_todo_suggestion_text` from `src/services/todoist_processing.py`
lines 42-63 (identical copy in `src/uploader_main.py` lines 142-162). -/
def format_todo_suggestion_text (s : TodoSuggestion) : Str :=
  intercalateNl
    ([lit "!!Project!!: " ++ s.project,
      lit "!!Task Summary!!: " ++ s.task_summary,
      lit "!!Tasks!!:"]
     ++ (if s.tasks.isEmpty then [lit "- (brak pozycji)"] else s.tasks.map (fun t => lit "- " ++ t))
     ++ [lit "!!Priority!!: " ++ intToStr s.priority]
     ++ (if s.due_date.isEmpty then [] else [lit "!!Due Date!!: " ++ s.due_date])
     ++ (if s.labels.isEmpty then [] else [lit "!!Labels!!: " ++ pyStrOfStrList s.labels]))

/-! ## The submission coordinator (`create_todoist_task` route)

The route body of `src/uploader_main.py` lines 452-549, starting from the
point where the account settings are available (session lookup and account
loading are authentication glue outside this pipeline).  The external client
`create_todoist_task_api` is imported in `src/uploader_main.py` but not
defined under the sources here, so it is passed in as an oracle. -/

/-- The per-account settings the route reads (`src/account_config.py`):
the Todoist API token and the configured default project id. -/
structure AccountSettings where
  todoist_api_token : Option Str
  todoist_project_id : Option Str
deriving DecidableEq

/-- One request issued to the task-creation client: the arguments the route
passes to `create_todoist_task_api`. -/
structure TaskRequest where
  content : Str
  project_id : Str
  parent_id : Option Str
  priority : Option PriorityVal
  due_date : Option Str
  labels : Option (List Str)
deriving DecidableEq

/-- A backend task record; the route only reads `response.get('id')`. -/
structure TaskRecord where
  id : Option Str
deriving DecidableEq

/-- The exceptions the route's `except` clauses distinguish: `ValueError`,
`TodoistError` (HTTP-like status plus detail), and any other exception
(network/connectivity), caught by the generic handler. -/
inductive ApiFailure where
  | valueError (msg : Str)
  | todoistError (status : Nat) (detail : Str)
  | connectivity (msg : Str)
deriving DecidableEq

/-- Modelled from the spec: the external task-creation client
`create_todoist_task_api` (its definition is not among the sources here;
`src/todoist_tasks.py` holds a variant without `parent_id`).  Per the spec it
takes content, project id, priority, due date, labels and parent id, and
either returns a task record or fails with a typed error. -/
def Client : Type := TaskRequest → Except ApiFailure TaskRecord

/-- The JSON outcome of the route: a success payload carrying the parent
record, the parsed sections and the structured payload, or an error with an
HTTP status and message. -/
inductive SubmitOutcome where
  | ok (parent : TaskRecord) (sections : List (Str × Str)) (payload : StructuredPayload)
  | error (status : Nat) (msg : Str)
deriving DecidableEq

/-- The HTTP status of an outcome (200 on success). -/
def outcomeStatus : SubmitOutcome → Nat
  | .ok _ _ _ => 200
  | .error st _ => st

/-- Python `str(KeyError(k))`. -/
def keyErrorRepr (k : Str) : Str := '\'' :: (k ++ ['\''])

/-- The generic catch-all error body, `'Błąd połączenia z Todoist: {exc}'`. -/
def catchAllMsg (detail : Str) : Str := lit "Błąd połączenia z Todoist: " ++ detail

/-- `str(TodoistError(status, detail))` from `src/todoist_tasks.py`. -/
def todoistErrorStr (status : Nat) (detail : Str) : Str :=
  lit "Todoist API error (" ++ natToStr status ++ lit "): " ++ detail

/-- The route's `except` clauses: `ValueError` → 400, `TodoistError` → its
status code, anything else → 502 with the connectivity message. -/
def failureOutcome : ApiFailure → SubmitOutcome
  | .valueError m => .error 400 m
  | .todoistError st d => .error st (todoistErrorStr st d)
  | .connectivity m => .error 502 (catchAllMsg m)

/-- `content = (payload.get('content') or '').strip()`. -/
def effectiveContent (content? : Option Str) : Str := strip (content?.getD [])

/-- `project_id = str(project_id_raw).strip() if project_id_raw is not None else ''`. -/
def explicitProjectId (project_id? : Option Str) : Str :=
  match project_id? with
  | some p => strip p
  | none => []

/-- `default_project_id = (account.todoist_project_id or '').strip()`. -/
def defaultProjectId (account : AccountSettings) : Str :=
  strip (account.todoist_project_id.getD [])

/-- The project id the tasks are created under: the explicit argument wins,
the account default is the fallback. -/
def effectiveProjectId (account : AccountSettings) (project_id? : Option Str) : Str :=
  if (explicitProjectId project_id?).isEmpty then defaultProjectId account
  else explicitProjectId project_id?

/-- `sections = split_content_into_dict(content)`. -/
def sectionsOf (content? : Option Str) : List (Str × Str) :=
  split_content_into_dict (effectiveContent content?)

/-- Any key of the structured payload present (Python truthiness of the dict). -/
def structuredNonEmpty (sp : StructuredPayload) : Bool :=
  sp.project.isSome || sp.task_summary.isSome || sp.tasks.isSome || sp.priority.isSome ||
    sp.due_date.isSome || sp.labels.isSome || sp.project_id.isSome

/-- The structured payload the route uses: a non-empty override wins,
otherwise it is rebuilt from the sections; an explicit project id is then
injected under `project_id`. -/
def structuredOf (content? : Option Str) (structured? : Option StructuredPayload)
    (project_id? : Option Str) : StructuredPayload :=
  let base :=
    match structured? with
    | some sp =>
      if structuredNonEmpty sp then sp else build_structured_payload_from_sections (sectionsOf content?)
    | none => build_structured_payload_from_sections (sectionsOf content?)
  if (explicitProjectId project_id?).isEmpty then base
  else { base with project_id := some (explicitProjectId project_id?) }

/-- `tasks_section = sections.get('Tasks', '')`. -/
def tasksSectionOf (content? : Option Str) : Str :=
  (dictGet? (sectionsOf content?) (lit "Tasks")).getD []

/-- `list_of_tasks = tasks_section.split('- ') if tasks_section else []`,
then blank entries are discarded. -/
def list_of_tasks (tasks_section : Str) : List Str :=
  (if tasks_section.isEmpty then [] else splitOnDashSpace tasks_section).filter
    (fun t => !(strip t).isEmpty)

/-- The parent-creation request the route issues: the `Task Summary` section
as content, the effective project id, no parent, and priority/due date/labels
from the structured payload. -/
def parentRequestOf (account : AccountSettings) (content? : Option Str)
    (structured? : Option StructuredPayload) (project_id? : Option Str)
    (task_summary : Str) : TaskRequest :=
  { content := task_summary,
    project_id := effectiveProjectId account project_id?,
    parent_id := none,
    priority := (structuredOf content? structured? project_id?).priority,
    due_date := (structuredOf content? structured? project_id?).due_date,
    labels := (structuredOf content? structured? project_id?).labels }

/-- The subtask request for one entry of `list_of_tasks`. -/
def subtaskRequestOf (account : AccountSettings) (content? : Option Str)
    (structured? : Option StructuredPayload) (project_id? : Option Str)
    (parent_id : Option Str) (task : Str) : TaskRequest :=
  { content := strip task,
    project_id := effectiveProjectId account project_id?,
    parent_id := parent_id,
    priority := (structuredOf content? structured? project_id?).priority,
    due_date := (structuredOf content? structured? project_id?).due_date,
    labels := (structuredOf content? structured? project_id?).labels }

/-- The subtask loop: one client call per entry, in list order, aborting on
the first failure.  Returns the loop outcome and the requests issued. -/
def runSubtasks (client : Client) (account : AccountSettings) (content? : Option Str)
    (structured? : Option StructuredPayload) (project_id? : Option Str)
    (parent_id : Option Str) : List Str → Except ApiFailure Unit × List TaskRequest
  | [] => (.ok (), [])
  | t :: ts =>
    let req := subtaskRequestOf account content? structured? project_id? parent_id t
    match client req with
    | .error e => (.error e, [req])
    | .ok _ =>
      let rest := runSubtasks client account content? structured? project_id? parent_id ts
      (rest.1, req :: rest.2)

/-- The `/todoist` route body `create_todoist_task` from
`src/uploader_main.py` lines 452-549, from the point where the account
settings are in hand.  Returns the JSON outcome together with the list of
client requests issued, in order.  The missing-key lookup
`sections['Task Summary']` is the `none` branch (a `KeyError` reaching the
generic handler). -/
def create_todoist_task (client : Client) (account : AccountSettings)
    (content? : Option Str) (structured? : Option StructuredPayload)
    (project_id? : Option Str) : SubmitOutcome × List TaskRequest :=
  if (account.todoist_api_token.getD []).isEmpty then
    (.error 400 (lit "Brak konfiguracji klucza API Todoist."), [])
  else if (effectiveContent content?).isEmpty then
    (.error 400 (lit "Treść zadania nie może być pusta."), [])
  else if (explicitProjectId project_id?).isEmpty && (defaultProjectId account).isEmpty then
    (.error 400 (lit "Brak wybranego projektu Todoist."), [])
  else
    match dictGet? (sectionsOf content?) (lit "Task Summary") with
    | none => (.error 502 (catchAllMsg (keyErrorRepr (lit "Task Summary"))), [])
    | some task_summary =>
      let req := parentRequestOf account content? structured? project_id? task_summary
      match client req with
      | .error e => (failureOutcome e, [req])
      | .ok todoist_response =>
        let lot := list_of_tasks (tasksSectionOf content?)
        if lot.isEmpty then
          (.ok todoist_response (sectionsOf content?) (structuredOf content? structured? project_id?),
           [req])
        else
          match runSubtasks client account content? structured? project_id? todoist_response.id lot with
          | (.error e, calls) => (failureOutcome e, req :: calls)
          | (.ok _, calls) =>
            (.ok todoist_response (sectionsOf content?) (structuredOf content? structured? project_id?),
             req :: calls)

/-! ## Auxiliary notions used by the theorems -/

/-- The map insertions a parser run performs (the flush of the open section,
if any, then the flushes triggered by each subsequent header and the final
flush), in order.  Mirrors `stepLine`/`flushState` exactly. -/
def flushPairs (ck : Option Str) (bf : List Str) : List (Str × Str) :=
  match ck with
  | some k => [(k, strip (intercalateNl bf))]
  | none => []

def insertsOf : List Str → Option Str → List Str → List (Str × Str)
  | [], ck, bf => flushPairs ck bf
  | l :: ls, ck, bf =>
    match headerMatch? (strip l) with
    | some (key, inline) => flushPairs ck bf ++ insertsOf ls (some (strip key)) (seedBuffer inline)
    | none =>
      match ck with
      | some k => insertsOf ls (some k) (bf ++ [rstrip l])
      | none => insertsOf ls none bf

/-- Apply a list of assignments to a map, in order. -/
def applyInserts (m : List (Str × Str)) (is : List (Str × Str)) : List (Str × Str) :=
  is.foldl (fun acc p => dictInsert acc p.1 p.2) m

/-- The value of the last assignment to `k` in an assignment list, if any. -/
def lastVal? : List (Str × Str) → Str → Option Str
  | [], _ => none
  | (k', v) :: rest, k =>
    match lastVal? rest k with
    | some w => some w
    | none => if k' = k then some v else none

/-- A single-line string already equal to its stripped form: the shape of a
field value that the marker format can carry through a round trip. -/
def cleanStr (s : Str) : Prop := lstrip s = s ∧ rstrip s = s ∧ '\n' ∉ s

instance (s : Str) : Decidable (cleanStr s) := by
  unfold cleanStr
  infer_instance

/-- The body line the formatter emits for one task, as the parser buffers it
(after its `rstrip`): `"- <t>"`, degenerating to `"-"` for an empty task. -/
def dashLine (t : Str) : Str := if t.isEmpty then ['-'] else '-' :: ' ' :: t

/-- The raw `Tasks` block a formatted suggestion parses back to. -/
def tasksBlock (ts : List Str) : Str := intercalateNl (ts.map dashLine)

/-- The section map a formatted clean suggestion parses back to. -/
def sectionsFmt (sg : TodoSuggestion) : List (Str × Str) :=
  [(lit "Project", sg.project),
   (lit "Task Summary", sg.task_summary),
   (lit "Tasks", tasksBlock sg.tasks),
   (lit "Priority", intToStr sg.priority)]
  ++ (if sg.due_date.isEmpty then [] else [(lit "Due Date", sg.due_date)])
  ++ (if sg.labels.isEmpty then [] else [(lit "Labels", pyStrOfStrList sg.labels)])

/-! ## Concrete fixtures for witnesses and counterexamples -/

/-- A backend double that always succeeds and returns task id `77`. -/
def okClient : Client := fun _ => .ok ⟨some (lit "77")⟩

/-- A backend double that always fails with a 403 `TodoistError`. -/
def failingClient : Client := fun _ => .error (.todoistError 403 (lit "Forbidden"))

/-- An account with a token and default project configured. -/
def sampleAccount : AccountSettings := ⟨some (lit "tok"), some (lit "proj")⟩

/-- An account with a token but no default project. -/
def noProjectAccount : AccountSettings := ⟨some (lit "tok"), none⟩

def contentBuyGroceries : Str := lit "!!Task Summary!!: Buy groceries\n!!Tasks!!:\n- milk"

def contentPlanTrip : Str := lit "!!Task Summary!!: Plan trip\n!!Tasks!!:\n- book flight\n- book hotel"

def contentEmbeddedDash : Str := lit "!!Task Summary!!: Calls\n!!Tasks!!:\n- call mom - dad"

/-! ## Lemmas: text primitives -/

theorem lstrip_cons_nonspace (c : Char) (s : Str) (h : pyIsSpace c = false) :
    lstrip (c :: s) = c :: s := by
  simp [lstrip, List.dropWhile_cons, h]

theorem rstrip_cons_nonspace (c : Char) (s : Str) (h : pyIsSpace c = false) :
    rstrip (c :: s) = c :: rstrip s := by
  simp only [rstrip, h, Bool.false_eq_true, if_false]
  cases hr : rstrip s with
  | nil => simp
  | cons a l => simp

theorem rstrip_cons_of_ne (c : Char) (s : Str) (h : rstrip s ≠ []) :
    rstrip (c :: s) = c :: rstrip s := by
  simp only [rstrip]
  cases hr : rstrip s with
  | nil => exact absurd hr h
  | cons a l => simp

theorem rstrip_append_empty (xs ys : Str) (h : rstrip ys = []) :
    rstrip (xs ++ ys) = rstrip xs := by
  induction xs with
  | nil => simpa using h
  | cons c xs ih => simp only [List.cons_append, rstrip, List.append_eq, ih]

theorem rstrip_append_of_ne (xs ys : Str) (h : rstrip ys ≠ []) :
    rstrip (xs ++ ys) = xs ++ rstrip ys := by
  induction xs with
  | nil => simp
  | cons c xs ih =>
    have hne : rstrip (xs ++ ys) ≠ [] := by
      rw [ih]
      intro hc
      exact h (List.append_eq_nil.mp hc).2
    rw [List.cons_append, rstrip_cons_of_ne _ _ hne, ih]
    rfl

theorem strip_cons_nonspace (c : Char) (s : Str) (h : pyIsSpace c = false) :
    strip (c :: s) = c :: rstrip s := by
  rw [strip, rstrip_cons_nonspace c s h, lstrip_cons_nonspace c _ h]

theorem strip_of_clean (s : Str) (h : cleanStr s) : strip s = s := by
  obtain ⟨h1, h2, _⟩ := h
  rw [strip, h2, h1]

theorem flushVal_seed (p : Str) (hp : cleanStr p) :
    strip (intercalateNl (seedBuffer (some p))) = p := by
  cases hq : p with
  | nil => rfl
  | cons c cs =>
    rw [← hq]
    have hseed : seedBuffer (some p) = [p] := by
      simp [seedBuffer, hq]
    rw [hseed]
    exact strip_of_clean p hp

theorem dashLine_rstrip (t : Str) (ht : cleanStr t) :
    rstrip ('-' :: ' ' :: t) = dashLine t := by
  cases hq : t with
  | nil => rfl
  | cons c cs =>
    rw [← hq]
    have hne : rstrip t ≠ [] := by
      rw [ht.2.1, hq]
      simp
    have h1 : rstrip (' ' :: t) = ' ' :: rstrip t := rstrip_cons_of_ne _ _ hne
    have h2 : rstrip ('-' :: ' ' :: t) = '-' :: rstrip (' ' :: t) := by
      apply rstrip_cons_of_ne
      rw [h1]
      simp
    rw [h2, h1, ht.2.1, dashLine, hq]
    simp

theorem strip_space_cons_clean (t : Str) (ht : cleanStr t) : strip (' ' :: t) = t := by
  cases hq : t with
  | nil => rfl
  | cons c cs =>
    rw [← hq]
    have hne : rstrip t ≠ [] := by
      rw [ht.2.1, hq]
      simp
    rw [strip, rstrip_cons_of_ne _ _ hne, ht.2.1]
    show lstrip (' ' :: t) = t
    rw [lstrip, List.dropWhile_cons]
    simp only [show pyIsSpace ' ' = true from rfl, if_true]
    exact ht.1

theorem buildTaskLine_dashLine (t : Str) (ht : cleanStr t) :
    buildTaskLine (dashLine t) = some t := by
  cases hq : t with
  | nil => rfl
  | cons c cs =>
    rw [← hq]
    have hd : dashLine t = '-' :: ' ' :: t := by
      simp [dashLine, hq]
    have hne : rstrip t ≠ [] := by
      rw [ht.2.1, hq]
      simp
    have h1 : rstrip (' ' :: t) = ' ' :: rstrip t := rstrip_cons_of_ne _ _ hne
    have hstrip : strip ('-' :: ' ' :: t) = '-' :: ' ' :: t := by
      rw [strip_cons_nonspace _ _ (by decide), h1, ht.2.1]
    have hred : buildTaskLine ('-' :: ' ' :: t) = some (strip (' ' :: t)) := by
      unfold buildTaskLine
      rw [hstrip]
      rfl
    rw [hd, hred, strip_space_cons_clean t ht]

def contentTaskSingular : Str := lit "!!Task!!:\n- milk"

def contentTasksPlural : Str := lit "!!Tasks!!:\n- milk"

/-- A clean suggestion exercising every field of the round trip. -/
def sgWitness : TodoSuggestion :=
  ⟨lit "Home", lit "Buy groceries", [lit "milk", lit "bread"], 3, lit "2025-01-01",
   [lit "work", lit "urgent"]⟩

/-- A suggestion whose single task carries leading whitespace. -/
def sgPadded : TodoSuggestion := ⟨lit "p", lit "s", [lit " x"], 1, [], []⟩

/-! ## Lemmas: the parser as a sequence of map assignments -/

theorem flushState_result (st : ParseState) :
    (flushState st).result = applyInserts st.result (flushPairs st.current st.buffer) := by
  cases st with
  | mk r ck bf => cases ck <;> rfl

theorem stepLine_header (st : ParseState) (l key : Str) (inline : Option Str)
    (hm : headerMatch? (strip l) = some (key, inline)) :
    stepLine st l =
      ⟨applyInserts st.result (flushPairs st.current st.buffer), some (strip key), seedBuffer inline⟩ := by
  cases st with
  | mk r ck bf =>
    simp only [stepLine, hm]
    cases ck <;> rfl

theorem stepLine_body (st : ParseState) (l k : Str)
    (hm : headerMatch? (strip l) = none) (hck : st.current = some k) :
    stepLine st l = ⟨st.result, some k, st.buffer ++ [rstrip l]⟩ := by
  cases st with
  | mk r ck bf =>
    simp only at hck
    subst hck
    simp only [stepLine, hm]

theorem stepLine_skip (st : ParseState) (l : Str)
    (hm : headerMatch? (strip l) = none) (hck : st.current = none) :
    stepLine st l = st := by
  cases st with
  | mk r ck bf =>
    simp only at hck
    subst hck
    simp only [stepLine, hm]

theorem runLines_cons (st : ParseState) (l : Str) (ls : List Str) :
    runLines st (l :: ls) = runLines (stepLine st l) ls := rfl

theorem runLines_append (st : ParseState) (l1 l2 : List Str) :
    runLines st (l1 ++ l2) = runLines (runLines st l1) l2 :=
  List.foldl_append _ _ _ _

theorem applyInserts_append (m : List (Str × Str)) (xs ys : List (Str × Str)) :
    applyInserts m (xs ++ ys) = applyInserts (applyInserts m xs) ys :=
  List.foldl_append _ _ _ _

theorem runLines_inserts (ls : List Str) (st : ParseState) :
    (flushState (runLines st ls)).result = applyInserts st.result (insertsOf ls st.current st.buffer) := by
  induction ls generalizing st with
  | nil => exact flushState_result st
  | cons l ls ih =>
    rw [runLines_cons]
    cases hm : headerMatch? (strip l) with
    | some kv =>
      obtain ⟨key, inline⟩ := kv
      rw [stepLine_header st l key inline hm, ih]
      simp only [insertsOf, hm, applyInserts_append]
    | none =>
      cases hck : st.current with
      | some k =>
        rw [stepLine_body st l k hm hck, ih]
        simp only [insertsOf, hm, hck]
      | none =>
        rw [stepLine_skip st l hm hck, ih]
        simp only [insertsOf, hm, hck]

theorem dictGet?_insert (m : List (Str × Str)) (k' v k : Str) :
    dictGet? (dictInsert m k' v) k = if k' = k then some v else dictGet? m k := by
  induction m with
  | nil => rfl
  | cons p rest ih =>
    obtain ⟨a, b⟩ := p
    simp only [dictInsert]
    by_cases ha : a = k'
    · subst ha
      simp only [if_pos rfl, dictGet?]
      by_cases hk : a = k <;> simp [hk]
    · simp only [if_neg ha, dictGet?, ih]
      by_cases hk : a = k
      · subst hk
        have hka : ¬ k' = a := fun hx => ha hx.symm
        simp [hka]
      · simp [hk]

theorem applyInserts_get_none (is : List (Str × Str)) (m : List (Str × Str)) (k : Str)
    (h : lastVal? is k = none) : dictGet? (applyInserts m is) k = dictGet? m k := by
  induction is generalizing m with
  | nil => rfl
  | cons p rest ih =>
    obtain ⟨a, b⟩ := p
    simp only [lastVal?] at h
    cases hl : lastVal? rest k with
    | some w => rw [hl] at h; exact absurd h (by simp)
    | none =>
      rw [hl] at h
      have hak : ¬ a = k := by
        by_contra hc
        simp [hc] at h
      simp only [applyInserts, List.foldl_cons]
      have hrest := ih (dictInsert m a b) hl
      simp only [applyInserts] at hrest
      rw [hrest, dictGet?_insert]
      simp [hak]

theorem applyInserts_get_some (is : List (Str × Str)) (m : List (Str × Str)) (k w : Str)
    (h : lastVal? is k = some w) : dictGet? (applyInserts m is) k = some w := by
  induction is generalizing m with
  | nil => simp [lastVal?] at h
  | cons p rest ih =>
    obtain ⟨a, b⟩ := p
    simp only [lastVal?] at h
    simp only [applyInserts, List.foldl_cons]
    cases hl : lastVal? rest k with
    | some w' =>
      rw [hl] at h
      have hw : w' = w := by simpa using h
      subst hw
      exact ih (dictInsert m a b) hl
    | none =>
      rw [hl] at h
      have hak : a = k := by
        by_contra hc
        simp [hc] at h
      have hbw : b = w := by
        rw [if_pos hak] at h
        exact Option.some.inj h
      have hrest := applyInserts_get_none rest (dictInsert m a b) k hl
      simp only [applyInserts] at hrest
      rw [hrest, dictGet?_insert, if_pos hak, hbw]

theorem lastVal?_append (xs ys : List (Str × Str)) (k : Str) :
    lastVal? (xs ++ ys) k =
      match lastVal? ys k with
      | some w => some w
      | none => lastVal? xs k := by
  induction xs with
  | nil =>
    simp only [List.nil_append]
    cases h : lastVal? ys k <;> simp [h, lastVal?]
  | cons p xs ih =>
    obtain ⟨a, b⟩ := p
    simp only [List.cons_append, lastVal?, List.append_eq]
    rw [ih]
    cases hys : lastVal? ys k <;> cases hxs : lastVal? xs k <;> simp [lastVal?, hys, hxs]

/-! ## Lemmas: header lines and line splitting -/

theorem takeWhile_name_append (name rest2 : Str) (h : ∀ c ∈ name, (c != '!') = true) :
    (name ++ '!' :: rest2).takeWhile (fun c => c != '!') = name := by
  induction name with
  | nil => simp [List.takeWhile_cons]
  | cons c cs ih =>
    have hc := h c (List.mem_cons_self c cs)
    simp only [List.cons_append, List.takeWhile_cons, hc, if_true]
    rw [ih (fun x hx => h x (List.mem_cons_of_mem c hx))]

theorem headerMatch_general (name after : Str) (hne : name ≠ [])
    (hbang : ∀ c ∈ name, (c != '!') = true) :
    headerMatch? ('!' :: '!' :: (name ++ '!' :: '!' :: ':' :: after)) =
      some (name, some (lstrip after)) := by
  show (let key := (name ++ '!' :: '!' :: ':' :: after).takeWhile (fun c => c != '!')
        if key.isEmpty then none
        else
          match (name ++ '!' :: '!' :: ':' :: after).drop key.length with
          | '!' :: '!' :: tail =>
            (match tail with
             | [] => some (key, none)
             | ':' :: after2 => some (key, some (after2.dropWhile pyIsSpace))
             | _ => none)
          | _ => none) = some (name, some (lstrip after))
  rw [takeWhile_name_append name _ hbang]
  have hke : name.isEmpty = false := by
    cases name with
    | nil => exact absurd rfl hne
    | cons a l => rfl
  simp only [hke, Bool.false_eq_true, if_false]
  rw [List.drop_left]
  rfl

theorem headerLine_match (name p : Str) (hne : name ≠ [])
    (hbang : ∀ c ∈ name, (c != '!') = true) (hp : cleanStr p) :
    headerMatch? (strip (('!' :: '!' :: (name ++ ['!', '!', ':', ' '])) ++ p)) =
      some (name, some p) := by
  cases hq : p with
  | nil =>
    have hshape : ('!' :: '!' :: (name ++ ['!', '!', ':', ' '])) ++ ([] : Str) =
        ('!' :: '!' :: (name ++ ['!', '!', ':'])) ++ [' '] := by
      simp
    rw [hshape]
    have hr : rstrip (('!' :: '!' :: (name ++ ['!', '!', ':'])) ++ [' ']) =
        rstrip ('!' :: '!' :: (name ++ ['!', '!', ':'])) := by
      apply rstrip_append_empty
      rfl
    have hr2 : rstrip ('!' :: '!' :: (name ++ ['!', '!', ':'])) =
        '!' :: '!' :: (name ++ ['!', '!', ':']) := by
      have h3 : rstrip ((['!', '!'] ++ name) ++ ['!', '!', ':']) =
          (['!', '!'] ++ name) ++ rstrip ['!', '!', ':'] := by
        apply rstrip_append_of_ne
        decide
      simpa using h3
    rw [strip, hr, hr2]
    have hl : lstrip ('!' :: '!' :: (name ++ ['!', '!', ':'])) =
        '!' :: '!' :: (name ++ ['!', '!', ':']) :=
      lstrip_cons_nonspace _ _ (by decide)
    rw [hl]
    have hshape2 : ('!' :: '!' :: (name ++ ['!', '!', ':']) : Str) =
        '!' :: '!' :: (name ++ '!' :: '!' :: ':' :: []) := rfl
    rw [hshape2, headerMatch_general name [] hne hbang]
    rfl
  | cons c cs =>
    rw [← hq]
    have hpne : p ≠ [] := by
      rw [hq]
      simp
    have hr : rstrip ((('!' :: '!' :: (name ++ ['!', '!', ':', ' ']))) ++ p) =
        ('!' :: '!' :: (name ++ ['!', '!', ':', ' '])) ++ p := by
      rw [rstrip_append_of_ne _ _ (by rw [hp.2.1]; exact hpne), hp.2.1]
    rw [strip, hr]
    have hl : lstrip (('!' :: '!' :: (name ++ ['!', '!', ':', ' '])) ++ p) =
        ('!' :: '!' :: (name ++ ['!', '!', ':', ' '])) ++ p := by
      apply lstrip_cons_nonspace
      decide
    rw [hl]
    have hshape : (('!' :: '!' :: (name ++ ['!', '!', ':', ' '])) ++ p : Str) =
        '!' :: '!' :: (name ++ '!' :: '!' :: ':' :: (' ' :: p)) := by
      simp
    rw [hshape, headerMatch_general name (' ' :: p) hne hbang]
    have : lstrip (' ' :: p) = p := by
      rw [lstrip, List.dropWhile_cons]
      simp only [show pyIsSpace ' ' = true from rfl, if_true]
      exact hp.1
    rw [this]

theorem headerMatch_dash (s : Str) : headerMatch? ('-' :: s) = none := rfl

theorem splitOnChar_no_sep (sep : Char) (l : Str) (h : sep ∉ l) :
    splitOnChar sep l = [l] := by
  induction l with
  | nil => rfl
  | cons c cs ih =>
    have hc : (c == sep) = false := by
      simp only [beq_eq_false_iff_ne, ne_eq]
      intro hcc
      exact h (hcc ▸ List.mem_cons_self c cs)
    have ihs := ih (fun hx => h (List.mem_cons_of_mem c hx))
    simp [splitOnChar, hc, ihs]

theorem splitOnChar_append_sep (sep : Char) (l rest : Str) (h : sep ∉ l) :
    splitOnChar sep (l ++ sep :: rest) = l :: splitOnChar sep rest := by
  induction l with
  | nil => simp [splitOnChar]
  | cons c cs ih =>
    have hc : (c == sep) = false := by
      simp only [beq_eq_false_iff_ne, ne_eq]
      intro hcc
      exact h (hcc ▸ List.mem_cons_self c cs)
    have ihs := ih (fun hx => h (List.mem_cons_of_mem c hx))
    simp only [List.cons_append, splitOnChar, hc, Bool.false_eq_true, if_false, List.append_eq, ihs]
    rfl

theorem splitOnChar_intercalateNl (ls : List (Str)) (hne : ls ≠ [])
    (h : ∀ l ∈ ls, '\n' ∉ l) : splitOnChar '\n' (intercalateNl ls) = ls := by
  induction ls with
  | nil => exact absurd rfl hne
  | cons l ls ih =>
    cases ls with
    | nil => exact splitOnChar_no_sep '\n' l (h l (List.mem_cons_self l []))
    | cons l2 ls2 =>
      have hstep : intercalateNl (l :: l2 :: ls2) = l ++ '\n' :: intercalateNl (l2 :: ls2) := rfl
      rw [hstep, splitOnChar_append_sep '\n' l _ (h l (List.mem_cons_self l _)),
        ih (by simp) (fun x hx => h x (List.mem_cons_of_mem l hx))]

theorem intercalateNl_cons_head (c : Char) (y : Str) (ls : List Str) :
    ∃ w, intercalateNl ((c :: y) :: ls) = c :: w := by
  cases ls with
  | nil => exact ⟨y, rfl⟩
  | cons l2 ls2 => exact ⟨y ++ '\n' :: intercalateNl (l2 :: ls2), rfl⟩

theorem rstrip_intercalateNl (ls : List Str) (hne : ls ≠ [])
    (h : ∀ l ∈ ls, rstrip l = l ∧ l ≠ []) :
    rstrip (intercalateNl ls) = intercalateNl ls ∧ intercalateNl ls ≠ [] := by
  induction ls with
  | nil => exact absurd rfl hne
  | cons l ls ih =>
    cases ls with
    | nil =>
      exact ⟨(h l (List.mem_cons_self l [])).1, (h l (List.mem_cons_self l [])).2⟩
    | cons l2 ls2 =>
      have hstep : intercalateNl (l :: l2 :: ls2) = l ++ '\n' :: intercalateNl (l2 :: ls2) := rfl
      obtain ⟨ihr, ihne⟩ := ih (by simp) (fun x hx => h x (List.mem_cons_of_mem l hx))
      have hnl : rstrip ('\n' :: intercalateNl (l2 :: ls2)) = '\n' :: intercalateNl (l2 :: ls2) := by
        rw [rstrip_cons_of_ne _ _ (by rw [ihr]; exact ihne), ihr]
      constructor
      · rw [hstep, rstrip_append_of_ne _ _ (by rw [hnl]; simp), hnl]
      · rw [hstep]
        simp

/-! ## Lemmas: the formatted task block -/

theorem runLines_body (k : Str) (ls : List Str) (st : ParseState)
    (hcur : st.current = some k)
    (hls : ∀ l ∈ ls, headerMatch? (strip l) = none) :
    runLines st ls = ⟨st.result, some k, st.buffer ++ ls.map rstrip⟩ := by
  induction ls generalizing st with
  | nil =>
    cases st with
    | mk r ck bf =>
      simp only at hcur
      subst hcur
      simp [runLines]
  | cons l ls ih =>
    rw [runLines_cons, stepLine_body st l k (hls l (List.mem_cons_self l ls)) hcur]
    rw [ih _ rfl (fun x hx => hls x (List.mem_cons_of_mem l hx))]
    simp

theorem dashLine_fixed (t : Str) (ht : cleanStr t) :
    rstrip (dashLine t) = dashLine t ∧ dashLine t ≠ [] := by
  by_cases hq : t = []
  · subst hq
    exact ⟨rfl, by simp [dashLine]⟩
  · have hd : dashLine t = '-' :: ' ' :: t := by simp [dashLine, hq]
    refine ⟨?_, by rw [hd]; simp⟩
    rw [hd, dashLine_rstrip t ht, hd]

theorem dashLine_head (t : Str) : ∃ y, dashLine t = '-' :: y := by
  by_cases hq : t = []
  · exact ⟨[], by simp [dashLine, hq]⟩
  · exact ⟨' ' :: t, by simp [dashLine, hq]⟩

theorem dashLine_noNl (t : Str) (ht : '\n' ∉ t) : '\n' ∉ dashLine t := by
  by_cases hq : t = []
  · simp [dashLine, hq]
  · have hd : dashLine t = '-' :: ' ' :: t := by simp [dashLine, hq]
    rw [hd]
    intro hmem
    simp only [List.mem_cons] at hmem
    rcases hmem with h1 | h1 | h1
    · exact absurd h1 (by decide)
    · exact absurd h1 (by decide)
    · exact ht h1

theorem tasksBlock_strip (ts : List Str) (hne : ts ≠ []) (h : ∀ t ∈ ts, cleanStr t) :
    strip (tasksBlock ts) = tasksBlock ts := by
  have hlines : ∀ l ∈ ts.map dashLine, rstrip l = l ∧ l ≠ [] := by
    intro l hl
    obtain ⟨t, ht, rfl⟩ := List.mem_map.mp hl
    exact dashLine_fixed t (h t ht)
  obtain ⟨hr, hni⟩ := rstrip_intercalateNl (ts.map dashLine) (by simpa using hne) hlines
  simp only [tasksBlock, strip]
  rw [hr]
  cases hts : ts with
  | nil => exact absurd hts hne
  | cons t rest =>
    obtain ⟨y, hy⟩ := dashLine_head t
    obtain ⟨w, hw⟩ := intercalateNl_cons_head '-' y (rest.map dashLine)
    rw [List.map_cons, hy, hw]
    exact lstrip_cons_nonspace _ _ (by decide)

theorem buildTasks_tasksBlock (ts : List Str) (hne : ts ≠ []) (h : ∀ t ∈ ts, cleanStr t) :
    buildTasks (tasksBlock ts) = ts := by
  simp only [buildTasks, tasksBlock]
  rw [splitOnChar_intercalateNl (ts.map dashLine) (by simpa using hne)]
  · rw [List.filterMap_map]
    calc List.filterMap (buildTaskLine ∘ dashLine) ts
        = List.filterMap some ts :=
          List.filterMap_congr (fun t ht => buildTaskLine_dashLine t (h t ht))
      _ = ts := List.filterMap_some ts
  · intro l hl
    obtain ⟨t, ht, rfl⟩ := List.mem_map.mp hl
    exact dashLine_noNl t (h t ht).2.2

theorem joinCommaSpace_noNl (xs : List Str) (h : ∀ x ∈ xs, '\n' ∉ x) :
    '\n' ∉ joinCommaSpace xs := by
  induction xs with
  | nil => simp [joinCommaSpace]
  | cons x xs ih =>
    cases xs with
    | nil => exact h x (List.mem_cons_self x [])
    | cons y ys =>
      have hstep : joinCommaSpace (x :: y :: ys) = x ++ ',' :: ' ' :: joinCommaSpace (y :: ys) := rfl
      rw [hstep]
      intro hmem
      rcases List.mem_append.mp hmem with h1 | h1
      · exact h x (List.mem_cons_self x _) h1
      · simp only [List.mem_cons] at h1
        rcases h1 with h1 | h1 | h1
        · exact absurd h1 (by decide)
        · exact absurd h1 (by decide)
        · exact ih (fun z hz => h z (List.mem_cons_of_mem x hz)) h1

theorem pyStrOfStrList_noNl (lb : List Str) (h : ∀ l ∈ lb, '\n' ∉ l) :
    '\n' ∉ pyStrOfStrList lb := by
  simp only [pyStrOfStrList]
  intro hmem
  simp only [List.mem_cons] at hmem
  rcases hmem with h1 | h1
  · exact absurd h1 (by decide)
  · rcases List.mem_append.mp h1 with h2 | h2
    · refine joinCommaSpace_noNl (lb.map (fun s => pyReprScalar (.str s))) ?_ h2
      intro x hx
      obtain ⟨l, hl, rfl⟩ := List.mem_map.mp hx
      simp only [pyReprScalar]
      intro hm2
      simp only [List.mem_cons] at hm2
      rcases hm2 with h3 | h3
      · exact absurd h3 (by decide)
      · rcases List.mem_append.mp h3 with h4 | h4
        · exact h l hl h4
        · simp only [List.mem_singleton] at h4
          exact absurd h4 (by decide)
    · simp only [List.mem_singleton] at h2
      exact absurd h2 (by decide)

theorem pyStrOfStrList_clean (lb : List Str) (h : ∀ l ∈ lb, '\n' ∉ l) :
    cleanStr (pyStrOfStrList lb) := by
  refine ⟨?_, ?_, pyStrOfStrList_noNl lb h⟩
  · exact lstrip_cons_nonspace _ _ (by decide)
  · simp only [pyStrOfStrList]
    have h1 : rstrip (joinCommaSpace (lb.map (fun s => pyReprScalar (.str s))) ++ [']']) =
        joinCommaSpace (lb.map (fun s => pyReprScalar (.str s))) ++ [']'] := by
      apply rstrip_append_of_ne
      decide
    rw [rstrip_cons_of_ne _ _ (by rw [h1]; simp), h1]

theorem headerMatch_project (p : Str) (hp : cleanStr p) :
    headerMatch? (strip (lit "!!Project!!: " ++ p)) = some (lit "Project", some p) := by
  have hsh : lit "!!Project!!: " ++ p = ('!' :: '!' :: (lit "Project" ++ ['!', '!', ':', ' '])) ++ p := rfl
  rw [hsh]
  exact headerLine_match (lit "Project") p (by decide) (by decide) hp

theorem headerMatch_taskSummary (p : Str) (hp : cleanStr p) :
    headerMatch? (strip (lit "!!Task Summary!!: " ++ p)) = some (lit "Task Summary", some p) := by
  have hsh : lit "!!Task Summary!!: " ++ p =
      ('!' :: '!' :: (lit "Task Summary" ++ ['!', '!', ':', ' '])) ++ p := rfl
  rw [hsh]
  exact headerLine_match (lit "Task Summary") p (by decide) (by decide) hp

theorem headerMatch_priority (p : Str) (hp : cleanStr p) :
    headerMatch? (strip (lit "!!Priority!!: " ++ p)) = some (lit "Priority", some p) := by
  have hsh : lit "!!Priority!!: " ++ p = ('!' :: '!' :: (lit "Priority" ++ ['!', '!', ':', ' '])) ++ p := rfl
  rw [hsh]
  exact headerLine_match (lit "Priority") p (by decide) (by decide) hp

theorem headerMatch_dueDate (p : Str) (hp : cleanStr p) :
    headerMatch? (strip (lit "!!Due Date!!: " ++ p)) = some (lit "Due Date", some p) := by
  have hsh : lit "!!Due Date!!: " ++ p = ('!' :: '!' :: (lit "Due Date" ++ ['!', '!', ':', ' '])) ++ p := rfl
  rw [hsh]
  exact headerLine_match (lit "Due Date") p (by decide) (by decide) hp

theorem headerMatch_labels (p : Str) (hp : cleanStr p) :
    headerMatch? (strip (lit "!!Labels!!: " ++ p)) = some (lit "Labels", some p) := by
  have hsh : lit "!!Labels!!: " ++ p = ('!' :: '!' :: (lit "Labels" ++ ['!', '!', ':', ' '])) ++ p := rfl
  rw [hsh]
  exact headerLine_match (lit "Labels") p (by decide) (by decide) hp

theorem taskLine_not_header (t : Str) :
    headerMatch? (strip (lit "- " ++ t)) = none := by
  have hsh : lit "- " ++ t = '-' :: ' ' :: t := rfl
  rw [hsh, strip_cons_nonspace _ _ (by decide)]
  exact headerMatch_dash _

theorem runLines_tailHeaders (ps : List (Str × Str)) (st : ParseState) (k : Str)
    (hck : st.current = some k)
    (hclean : ∀ q ∈ ps, (q.1 ≠ [] ∧ (∀ c ∈ q.1, (c != '!') = true) ∧ strip q.1 = q.1) ∧ cleanStr q.2) :
    (flushState (runLines st (ps.map (fun q => ('!' :: '!' :: (q.1 ++ ['!', '!', ':', ' '])) ++ q.2)))).result
      = applyInserts st.result ((k, strip (intercalateNl st.buffer)) :: ps) := by
  induction ps generalizing st k with
  | nil =>
    cases st with
    | mk r ck bf =>
      simp only at hck
      subst hck
      simp [runLines, flushState, applyInserts, List.foldl_cons, dictInsert]
  | cons q ps ih =>
    obtain ⟨n, v⟩ := q
    obtain ⟨⟨hn1, hn2, hn3⟩, hv⟩ := hclean (n, v) (List.mem_cons_self _ _)
    simp only [List.map_cons]
    rw [runLines_cons]
    have hm : headerMatch? (strip (('!' :: '!' :: (n ++ ['!', '!', ':', ' '])) ++ v)) = some (n, some v) :=
      headerLine_match n v hn1 hn2 hv
    rw [stepLine_header st _ _ _ hm]
    rw [ih _ (strip n) rfl (fun x hx => hclean x (List.mem_cons_of_mem _ hx))]
    rw [hn3, flushVal_seed v hv, hck]
    rw [show applyInserts st.result (flushPairs (some k) st.buffer) =
        applyInserts st.result [(k, strip (intercalateNl st.buffer))] from rfl]
    rw [← applyInserts_append]
    rfl

theorem dictGet?_cons_ne (a : Str) (b : Str) (m : List (Str × Str)) (k : Str) (h : ¬ a = k) :
    dictGet? ((a, b) :: m) k = dictGet? m k := by
  simp [dictGet?, h]

theorem dictInsert_notin (m : List (Str × Str)) (k v : Str) (h : dictGet? m k = none) :
    dictInsert m k v = m ++ [(k, v)] := by
  induction m with
  | nil => rfl
  | cons p rest ih =>
    obtain ⟨a, b⟩ := p
    simp only [dictGet?] at h
    have hak : ¬ a = k := by
      by_contra hc
      simp [hc] at h
    rw [if_neg hak] at h
    simp [dictInsert, hak, ih h]

theorem applyInserts_fresh (m : List (Str × Str)) (is : List (Str × Str))
    (hpw : List.Pairwise (fun q q' => q.1 ≠ q'.1) is)
    (hfresh : ∀ q ∈ is, dictGet? m q.1 = none) :
    applyInserts m is = m ++ is := by
  induction is generalizing m with
  | nil => simp [applyInserts]
  | cons q is ih =>
    obtain ⟨k, v⟩ := q
    simp only [applyInserts, List.foldl_cons]
    have h1 : dictInsert m k v = m ++ [(k, v)] :=
      dictInsert_notin m k v (hfresh (k, v) (List.mem_cons_self _ _))
    have hpw' := (List.pairwise_cons.mp hpw).2
    have hhd := (List.pairwise_cons.mp hpw).1
    have hfresh' : ∀ q ∈ is, dictGet? (dictInsert m k v) q.1 = none := by
      intro q hq
      rw [dictGet?_insert]
      have hne : ¬ k = q.1 := hhd q hq
      rw [if_neg hne]
      exact hfresh q (List.mem_cons_of_mem _ hq)
    have := ih (dictInsert m k v) hpw' hfresh'
    simp only [applyInserts] at this
    rw [this, h1]
    simp

/-! ## The formatter-parser round trip -/

theorem applyInserts_cons (m : List (Str × Str)) (k v : Str) (rest : List (Str × Str)) :
    applyInserts m ((k, v) :: rest) = applyInserts (dictInsert m k v) rest := rfl

theorem parse_format (sg : TodoSuggestion)
    (hp : cleanStr sg.project) (hs : cleanStr sg.task_summary)
    (hts : sg.tasks ≠ []) (htc : ∀ t ∈ sg.tasks, cleanStr t)
    (hdd : cleanStr sg.due_date)
    (hpri : cleanStr (intToStr sg.priority))
    (hlb : ∀ l ∈ sg.labels, '\n' ∉ l) :
    split_content_into_dict (format_todo_suggestion_text sg) = sectionsFmt sg := by
  obtain ⟨p, s, ts, pr, dd, lb⟩ := sg
  simp only [TodoSuggestion.project, TodoSuggestion.task_summary, TodoSuggestion.tasks,
    TodoSuggestion.priority, TodoSuggestion.due_date, TodoSuggestion.labels] at hp hs hts htc hdd hpri hlb
  have hnn : ∀ (xs ys : Str), '\n' ∉ xs → '\n' ∉ ys → '\n' ∉ xs ++ ys := by
    intro xs ys h1 h2 hm
    rcases List.mem_append.mp hm with h3 | h3
    · exact h1 h3
    · exact h2 h3
  have hts0 : ts.isEmpty = false := by
    cases ts with
    | nil => exact absurd rfl hts
    | cons a l => rfl
  -- the trailing header lines, as (name, value) pairs
  have htail : ∀ q ∈ ((lit "Priority", intToStr pr) ::
      ((if dd.isEmpty then [] else [(lit "Due Date", dd)]) ++
       (if lb.isEmpty then [] else [(lit "Labels", pyStrOfStrList lb)]))),
      (q.1 ≠ [] ∧ (∀ c ∈ q.1, (c != '!') = true) ∧ strip q.1 = q.1) ∧ cleanStr q.2 := by
    intro q hq
    simp only [List.mem_cons, List.mem_append] at hq
    rcases hq with rfl | hq
    · refine ⟨⟨?_, ?_, ?_⟩, hpri⟩
      · show lit "Priority" ≠ []
        decide
      · show ∀ c ∈ lit "Priority", (c != '!') = true
        decide
      · show strip (lit "Priority") = lit "Priority"
        decide
    · rcases hq with hq | hq
      · by_cases h0 : dd.isEmpty
        · simp [h0] at hq
        · simp only [h0, Bool.false_eq_true, if_false, List.mem_singleton] at hq
          subst hq
          refine ⟨⟨?_, ?_, ?_⟩, hdd⟩
          · show lit "Due Date" ≠ []
            decide
          · show ∀ c ∈ lit "Due Date", (c != '!') = true
            decide
          · show strip (lit "Due Date") = lit "Due Date"
            decide
      · by_cases h0 : lb.isEmpty
        · simp [h0] at hq
        · simp only [h0, Bool.false_eq_true, if_false, List.mem_singleton] at hq
          subst hq
          refine ⟨⟨?_, ?_, ?_⟩, pyStrOfStrList_clean lb hlb⟩
          · show lit "Labels" ≠ []
            decide
          · show ∀ c ∈ lit "Labels", (c != '!') = true
            decide
          · show strip (lit "Labels") = lit "Labels"
            decide
  -- the formatter output as an explicit line list
  have hfmt : format_todo_suggestion_text ⟨p, s, ts, pr, dd, lb⟩ =
      intercalateNl ((lit "!!Project!!: " ++ p) :: (lit "!!Task Summary!!: " ++ s) ::
        lit "!!Tasks!!:" ::
        (ts.map (fun t => lit "- " ++ t) ++
          ((lit "Priority", intToStr pr) ::
            ((if dd.isEmpty then [] else [(lit "Due Date", dd)]) ++
             (if lb.isEmpty then [] else [(lit "Labels", pyStrOfStrList lb)]))).map
            (fun q => ('!' :: '!' :: (q.1 ++ ['!', '!', ':', ' '])) ++ q.2))) := by
    simp only [format_todo_suggestion_text, hts0, Bool.false_eq_true, if_false]
    congr 1
    have e1 : lit "!!Priority!!: " = '!' :: '!' :: (lit "Priority" ++ ['!', '!', ':', ' ']) := rfl
    have e2 : lit "!!Due Date!!: " = '!' :: '!' :: (lit "Due Date" ++ ['!', '!', ':', ' ']) := rfl
    have e3 : lit "!!Labels!!: " = '!' :: '!' :: (lit "Labels" ++ ['!', '!', ':', ' ']) := rfl
    by_cases h0 : dd.isEmpty <;> by_cases h1 : lb.isEmpty <;>
      simp [h0, h1, e1, e2, e3, List.append_assoc]
  rw [hfmt]
  -- no line of the formatted output contains a newline
  have hline_noNl : ∀ (n v : Str), '\n' ∉ n → '\n' ∉ v →
      '\n' ∉ ('!' :: '!' :: (n ++ ['!', '!', ':', ' '])) ++ v := by
    intro n v h1 h2
    apply hnn
    · intro hm
      simp only [List.mem_cons] at hm
      rcases hm with h3 | h3 | h3
      · exact absurd h3 (by decide)
      · exact absurd h3 (by decide)
      · exact hnn n _ h1 (by decide) h3
    · exact h2
  have htailNl : ∀ q ∈ ((lit "Priority", intToStr pr) ::
      ((if dd.isEmpty then [] else [(lit "Due Date", dd)]) ++
       (if lb.isEmpty then [] else [(lit "Labels", pyStrOfStrList lb)]))),
      '\n' ∉ (q.1 : Str) := by
    intro q hq
    simp only [List.mem_cons, List.mem_append] at hq
    rcases hq with rfl | hq
    · show '\n' ∉ lit "Priority"
      decide
    · rcases hq with hq | hq
      · by_cases h0 : dd.isEmpty
        · simp [h0] at hq
        · simp only [h0, Bool.false_eq_true, if_false, List.mem_singleton] at hq
          subst hq
          show '\n' ∉ lit "Due Date"
          decide
      · by_cases h0 : lb.isEmpty
        · simp [h0] at hq
        · simp only [h0, Bool.false_eq_true, if_false, List.mem_singleton] at hq
          subst hq
          show '\n' ∉ lit "Labels"
          decide
  have hnl : ∀ l ∈ ((lit "!!Project!!: " ++ p) :: (lit "!!Task Summary!!: " ++ s) ::
      lit "!!Tasks!!:" ::
      (ts.map (fun t => lit "- " ++ t) ++
        ((lit "Priority", intToStr pr) ::
          ((if dd.isEmpty then [] else [(lit "Due Date", dd)]) ++
           (if lb.isEmpty then [] else [(lit "Labels", pyStrOfStrList lb)]))).map
          (fun q => ('!' :: '!' :: (q.1 ++ ['!', '!', ':', ' '])) ++ q.2))), '\n' ∉ l := by
    intro l hl
    simp only [List.mem_cons, List.mem_append, List.mem_map] at hl
    rcases hl with rfl | rfl | rfl | ⟨t, ht, rfl⟩ | ⟨q, hq, rfl⟩
    · exact hnn _ _ (by decide) hp.2.2
    · exact hnn _ _ (by decide) hs.2.2
    · decide
    · exact hnn _ _ (by decide) (htc t ht).2.2
    · refine hline_noNl q.1 q.2 (htailNl q ?_) (htail q ?_).2.2.2 <;>
        simpa [List.mem_cons, List.mem_append] using hq
  -- the formatted output is a non-empty string
  obtain ⟨w0, hw0⟩ := intercalateNl_cons_head '!' (lit "!Project!!: " ++ p)
    ((lit "!!Task Summary!!: " ++ s) :: lit "!!Tasks!!:" ::
      (ts.map (fun t => lit "- " ++ t) ++
        ((lit "Priority", intToStr pr) ::
          ((if dd.isEmpty then [] else [(lit "Due Date", dd)]) ++
           (if lb.isEmpty then [] else [(lit "Labels", pyStrOfStrList lb)]))).map
          (fun q => ('!' :: '!' :: (q.1 ++ ['!', '!', ':', ' '])) ++ q.2)))
  have hie : (intercalateNl ((lit "!!Project!!: " ++ p) :: (lit "!!Task Summary!!: " ++ s) ::
      lit "!!Tasks!!:" ::
      (ts.map (fun t => lit "- " ++ t) ++
        ((lit "Priority", intToStr pr) ::
          ((if dd.isEmpty then [] else [(lit "Due Date", dd)]) ++
           (if lb.isEmpty then [] else [(lit "Labels", pyStrOfStrList lb)]))).map
          (fun q => ('!' :: '!' :: (q.1 ++ ['!', '!', ':', ' '])) ++ q.2)))).isEmpty = false := by
    rw [show (intercalateNl ((lit "!!Project!!: " ++ p) :: (lit "!!Task Summary!!: " ++ s) ::
      lit "!!Tasks!!:" ::
      (ts.map (fun t => lit "- " ++ t) ++
        ((lit "Priority", intToStr pr) ::
          ((if dd.isEmpty then [] else [(lit "Due Date", dd)]) ++
           (if lb.isEmpty then [] else [(lit "Labels", pyStrOfStrList lb)]))).map
          (fun q => ('!' :: '!' :: (q.1 ++ ['!', '!', ':', ' '])) ++ q.2)))) = '!' :: w0 from hw0]
    rfl
  simp only [split_content_into_dict, hie, Bool.false_eq_true, if_false]
  rw [splitOnChar_intercalateNl _ (by simp) hnl]
  -- run the parser over the line list, one section at a time
  have h01 : stepLine initState (lit "!!Project!!: " ++ p) =
      ⟨[], some (lit "Project"), seedBuffer (some p)⟩ := by
    rw [stepLine_header _ _ _ _ (headerMatch_project p hp)]
    rfl
  have h12 : stepLine ⟨[], some (lit "Project"), seedBuffer (some p)⟩
      (lit "!!Task Summary!!: " ++ s) =
      ⟨[(lit "Project", p)], some (lit "Task Summary"), seedBuffer (some s)⟩ := by
    rw [stepLine_header _ _ _ _ (headerMatch_taskSummary s hs)]
    simp only [flushPairs, flushVal_seed p hp]
    rfl
  have hmC : headerMatch? (strip (lit "!!Tasks!!:")) = some (lit "Tasks", some []) := by decide
  have h23 : stepLine ⟨[(lit "Project", p)], some (lit "Task Summary"), seedBuffer (some s)⟩
      (lit "!!Tasks!!:") =
      ⟨[(lit "Project", p), (lit "Task Summary", s)], some (lit "Tasks"), []⟩ := by
    rw [stepLine_header _ _ _ _ hmC]
    simp only [flushPairs, flushVal_seed s hs]
    rw [show applyInserts [(lit "Project", p)] [(lit "Task Summary", s)] =
        dictInsert [(lit "Project", p)] (lit "Task Summary") s from rfl]
    rw [dictInsert_notin _ _ _ (by rw [dictGet?_cons_ne _ _ _ _ (by decide)]; rfl)]
    rfl
  have hbuf : (ts.map (fun t => lit "- " ++ t)).map rstrip = ts.map dashLine := by
    rw [List.map_map]
    refine List.map_congr_left ?_
    intro t ht
    show rstrip (lit "- " ++ t) = dashLine t
    rw [show lit "- " ++ t = '-' :: ' ' :: t from rfl]
    exact dashLine_rstrip t (htc t ht)
  have h34 : runLines ⟨[(lit "Project", p), (lit "Task Summary", s)], some (lit "Tasks"), []⟩
      (ts.map (fun t => lit "- " ++ t)) =
      ⟨[(lit "Project", p), (lit "Task Summary", s)], some (lit "Tasks"), ts.map dashLine⟩ := by
    rw [runLines_body (lit "Tasks") _ _ rfl
      (by intro l hl; obtain ⟨t, ht, rfl⟩ := List.mem_map.mp hl; exact taskLine_not_header t)]
    rw [hbuf, List.nil_append]
  simp only [parseLines]
  rw [runLines_cons, h01, runLines_cons, h12, runLines_cons, h23, runLines_append, h34]
  rw [runLines_tailHeaders _ _ (lit "Tasks") rfl
    (fun q hq => ⟨(htail q hq).1, (htail q hq).2⟩)]
  rw [show strip (intercalateNl (ParseState.buffer
      ⟨[(lit "Project", p), (lit "Task Summary", s)], some (lit "Tasks"), ts.map dashLine⟩)) =
      tasksBlock ts from tasksBlock_strip ts hts htc]
  show applyInserts [(lit "Project", p), (lit "Task Summary", s)]
      ((lit "Tasks", tasksBlock ts) :: (lit "Priority", intToStr pr) ::
        ((if dd.isEmpty then [] else [(lit "Due Date", dd)]) ++
         (if lb.isEmpty then [] else [(lit "Labels", pyStrOfStrList lb)]))) =
      sectionsFmt ⟨p, s, ts, pr, dd, lb⟩
  have ins1 : dictInsert [(lit "Project", p), (lit "Task Summary", s)] (lit "Tasks")
      (tasksBlock ts) =
      [(lit "Project", p), (lit "Task Summary", s), (lit "Tasks", tasksBlock ts)] := by
    rw [dictInsert_notin _ _ _ (by
      rw [dictGet?_cons_ne _ _ _ _ (by decide), dictGet?_cons_ne _ _ _ _ (by decide)]; rfl)]
    rfl
  have ins2 : dictInsert [(lit "Project", p), (lit "Task Summary", s),
      (lit "Tasks", tasksBlock ts)] (lit "Priority") (intToStr pr) =
      [(lit "Project", p), (lit "Task Summary", s), (lit "Tasks", tasksBlock ts),
       (lit "Priority", intToStr pr)] := by
    rw [dictInsert_notin _ _ _ (by
      rw [dictGet?_cons_ne _ _ _ _ (by decide), dictGet?_cons_ne _ _ _ _ (by decide),
        dictGet?_cons_ne _ _ _ _ (by decide)]; rfl)]
    rfl
  have ins3d : dictInsert [(lit "Project", p), (lit "Task Summary", s),
      (lit "Tasks", tasksBlock ts), (lit "Priority", intToStr pr)] (lit "Due Date") dd =
      [(lit "Project", p), (lit "Task Summary", s), (lit "Tasks", tasksBlock ts),
       (lit "Priority", intToStr pr), (lit "Due Date", dd)] := by
    rw [dictInsert_notin _ _ _ (by
      rw [dictGet?_cons_ne _ _ _ _ (by decide), dictGet?_cons_ne _ _ _ _ (by decide),
        dictGet?_cons_ne _ _ _ _ (by decide), dictGet?_cons_ne _ _ _ _ (by decide)]; rfl)]
    rfl
  have ins3l : dictInsert [(lit "Project", p), (lit "Task Summary", s),
      (lit "Tasks", tasksBlock ts), (lit "Priority", intToStr pr)] (lit "Labels")
      (pyStrOfStrList lb) =
      [(lit "Project", p), (lit "Task Summary", s), (lit "Tasks", tasksBlock ts),
       (lit "Priority", intToStr pr), (lit "Labels", pyStrOfStrList lb)] := by
    rw [dictInsert_notin _ _ _ (by
      rw [dictGet?_cons_ne _ _ _ _ (by decide), dictGet?_cons_ne _ _ _ _ (by decide),
        dictGet?_cons_ne _ _ _ _ (by decide), dictGet?_cons_ne _ _ _ _ (by decide)]; rfl)]
    rfl
  have ins4 : dictInsert [(lit "Project", p), (lit "Task Summary", s),
      (lit "Tasks", tasksBlock ts), (lit "Priority", intToStr pr), (lit "Due Date", dd)]
      (lit "Labels") (pyStrOfStrList lb) =
      [(lit "Project", p), (lit "Task Summary", s), (lit "Tasks", tasksBlock ts),
       (lit "Priority", intToStr pr), (lit "Due Date", dd), (lit "Labels", pyStrOfStrList lb)] := by
    rw [dictInsert_notin _ _ _ (by
      rw [dictGet?_cons_ne _ _ _ _ (by decide), dictGet?_cons_ne _ _ _ _ (by decide),
        dictGet?_cons_ne _ _ _ _ (by decide), dictGet?_cons_ne _ _ _ _ (by decide),
        dictGet?_cons_ne _ _ _ _ (by decide)]; rfl)]
    rfl
  by_cases h0 : dd.isEmpty
  · by_cases h1 : lb.isEmpty
    · simp only [h0, h1, if_true, List.append_nil, List.nil_append]
      rw [applyInserts_cons, ins1, applyInserts_cons, ins2]
      simp [applyInserts, sectionsFmt, h0, h1]
    · simp only [h0, h1, Bool.false_eq_true, if_true, if_false, List.nil_append]
      rw [applyInserts_cons, ins1, applyInserts_cons, ins2, applyInserts_cons, ins3l]
      simp [applyInserts, sectionsFmt, h0, h1]
  · by_cases h1 : lb.isEmpty
    · simp only [h0, h1, Bool.false_eq_true, if_true, if_false, List.append_nil]
      rw [applyInserts_cons, ins1, applyInserts_cons, ins2, applyInserts_cons, ins3d]
      simp [applyInserts, sectionsFmt, h0, h1]
    · simp only [h0, h1, Bool.false_eq_true, if_false, List.singleton_append]
      rw [applyInserts_cons, ins1, applyInserts_cons, ins2, applyInserts_cons, ins3d,
        applyInserts_cons, ins4]
      simp [applyInserts, sectionsFmt, h0, h1]

theorem tasksBlock_head (ts : List Str) (hts : ts ≠ []) : ∃ w, tasksBlock ts = '-' :: w := by
  cases ts with
  | nil => exact absurd rfl hts
  | cons t rest =>
    obtain ⟨y, hy⟩ := dashLine_head t
    obtain ⟨w, hw⟩ := intercalateNl_cons_head '-' y (rest.map dashLine)
    refine ⟨w, ?_⟩
    rw [tasksBlock, List.map_cons, hy]
    exact hw

theorem build_sectionsFmt (sg : TodoSuggestion)
    (hp : cleanStr sg.project) (hs : cleanStr sg.task_summary)
    (hts : sg.tasks ≠ []) (htc : ∀ t ∈ sg.tasks, cleanStr t)
    (hdd : cleanStr sg.due_date)
    (hpric : cleanStr (intToStr sg.priority))
    (hprine : intToStr sg.priority ≠ [])
    (hpriv : pyInt? (intToStr sg.priority) = some sg.priority)
    (hlbNl : ∀ l ∈ sg.labels, '\n' ∉ l)
    (hlab : sg.labels = [] ∨
      literal_eval (pyStrOfStrList sg.labels) = some (.list (sg.labels.map PyScalar.str))) :
    build_structured_payload_from_sections (sectionsFmt sg) =
      { project := if sg.project.isEmpty then none else some sg.project,
        task_summary := if sg.task_summary.isEmpty then none else some sg.task_summary,
        tasks := some sg.tasks,
        priority := some (.int sg.priority),
        due_date := if sg.due_date.isEmpty then none else some sg.due_date,
        labels := if sg.labels.isEmpty then none else some sg.labels,
        project_id := none } := by
  obtain ⟨p, s, ts, pr, dd, lb⟩ := sg
  simp only [TodoSuggestion.project, TodoSuggestion.task_summary, TodoSuggestion.tasks,
    TodoSuggestion.priority, TodoSuggestion.due_date, TodoSuggestion.labels]
    at hp hs hts htc hdd hpric hprine hpriv hlbNl hlab ⊢
  obtain ⟨wt, hwt⟩ := tasksBlock_head ts hts
  have htbne : (tasksBlock ts).isEmpty = false := by rw [hwt]; rfl
  have hbt : buildTasks (tasksBlock ts) = ts := buildTasks_tasksBlock ts hts htc
  have htsne : ts.isEmpty = false := by
    cases ts with
    | nil => exact absurd rfl hts
    | cons a l => rfl
  have hsonP : strip_or_none (some p) = if p.isEmpty then none else some p := by
    simp only [strip_or_none, strip_of_clean p hp]
  have hsonS : strip_or_none (some s) = if s.isEmpty then none else some s := by
    simp only [strip_or_none, strip_of_clean s hs]
  have hsonD : strip_or_none (some dd) = if dd.isEmpty then none else some dd := by
    simp only [strip_or_none, strip_of_clean dd hdd]
  have hipre : (intToStr pr).isEmpty = false := by
    cases hq : intToStr pr with
    | nil => exact absurd hq hprine
    | cons a l => rfl
  have hsonPr : strip_or_none (some (intToStr pr)) = some (intToStr pr) := by
    simp only [strip_or_none, strip_of_clean _ hpric, hipre, Bool.false_eq_true, if_false]
  by_cases h0 : dd.isEmpty
  · by_cases h1 : lb.isEmpty
    · have hlbe : lb = [] := by
        cases lb with
        | nil => rfl
        | cons a l => exact absurd h1 (by simp)
      have hsec : sectionsFmt ⟨p, s, ts, pr, dd, lb⟩ =
          [(lit "Project", p), (lit "Task Summary", s),
           (lit "Tasks", tasksBlock ts), (lit "Priority", intToStr pr)] := by
        simp [sectionsFmt, h0, h1]
      rw [hsec]
      simp only [build_structured_payload_from_sections,
        show dictGet? [(lit "Project", p), (lit "Task Summary", s),
          (lit "Tasks", tasksBlock ts), (lit "Priority", intToStr pr)] (lit "Project") = some p from rfl,
        show dictGet? [(lit "Project", p), (lit "Task Summary", s),
          (lit "Tasks", tasksBlock ts), (lit "Priority", intToStr pr)] (lit "Task Summary") = some s from rfl,
        show dictGet? [(lit "Project", p), (lit "Task Summary", s),
          (lit "Tasks", tasksBlock ts), (lit "Priority", intToStr pr)] (lit "Tasks") = some (tasksBlock ts) from rfl,
        show dictGet? [(lit "Project", p), (lit "Task Summary", s),
          (lit "Tasks", tasksBlock ts), (lit "Priority", intToStr pr)] (lit "Priority") = some (intToStr pr) from rfl,
        show dictGet? [(lit "Project", p), (lit "Task Summary", s),
          (lit "Tasks", tasksBlock ts), (lit "Priority", intToStr pr)] (lit "Due Date") = none from rfl,
        show dictGet? [(lit "Project", p), (lit "Task Summary", s),
          (lit "Tasks", tasksBlock ts), (lit "Priority", intToStr pr)] (lit "Labels") = none from rfl,
        show strip_or_none none = (none : Option Str) from rfl,
        hsonP, hsonS, hsonPr, htbne, hbt, htsne, hpriv]
      try simp [h0, h1]
    · have hlbne : lb ≠ [] := by
        cases lb with
        | nil => exact absurd rfl h1
        | cons a l => simp
      have hlab2 : literal_eval (pyStrOfStrList lb) = some (.list (lb.map PyScalar.str)) :=
        hlab.resolve_left hlbne
      have hlbclean := pyStrOfStrList_clean lb hlbNl
      have hmapid : (lb.map PyScalar.str).map pyStrOfScalar = lb := by
        rw [List.map_map,
          show (pyStrOfScalar ∘ PyScalar.str) = fun a : Str => a from rfl]
        simp
      have hsec : sectionsFmt ⟨p, s, ts, pr, dd, lb⟩ =
          [(lit "Project", p), (lit "Task Summary", s),
           (lit "Tasks", tasksBlock ts), (lit "Priority", intToStr pr),
           (lit "Labels", pyStrOfStrList lb)] := by
        simp [sectionsFmt, h0, h1]
      rw [hsec]
      simp only [build_structured_payload_from_sections,
        show dictGet? [(lit "Project", p), (lit "Task Summary", s),
          (lit "Tasks", tasksBlock ts), (lit "Priority", intToStr pr),
          (lit "Labels", pyStrOfStrList lb)] (lit "Project") = some p from rfl,
        show dictGet? [(lit "Project", p), (lit "Task Summary", s),
          (lit "Tasks", tasksBlock ts), (lit "Priority", intToStr pr),
          (lit "Labels", pyStrOfStrList lb)] (lit "Task Summary") = some s from rfl,
        show dictGet? [(lit "Project", p), (lit "Task Summary", s),
          (lit "Tasks", tasksBlock ts), (lit "Priority", intToStr pr),
          (lit "Labels", pyStrOfStrList lb)] (lit "Tasks") = some (tasksBlock ts) from rfl,
        show dictGet? [(lit "Project", p), (lit "Task Summary", s),
          (lit "Tasks", tasksBlock ts), (lit "Priority", intToStr pr),
          (lit "Labels", pyStrOfStrList lb)] (lit "Priority") = some (intToStr pr) from rfl,
        show dictGet? [(lit "Project", p), (lit "Task Summary", s),
          (lit "Tasks", tasksBlock ts), (lit "Priority", intToStr pr),
          (lit "Labels", pyStrOfStrList lb)] (lit "Due Date") = none from rfl,
        show dictGet? [(lit "Project", p), (lit "Task Summary", s),
          (lit "Tasks", tasksBlock ts), (lit "Priority", intToStr pr),
          (lit "Labels", pyStrOfStrList lb)] (lit "Labels") = some (pyStrOfStrList lb) from rfl,
        show strip_or_none none = (none : Option Str) from rfl,
        hsonP, hsonS, hsonPr, htbne, hbt, htsne, hpriv]
      simp only [strip_or_none, strip_of_clean _ hlbclean,
        show (pyStrOfStrList lb).isEmpty = false from rfl, Bool.false_eq_true, if_false,
        buildLabels, hlab2, hmapid]
      try simp [h0, h1]
  · by_cases h1 : lb.isEmpty
    · have hsec : sectionsFmt ⟨p, s, ts, pr, dd, lb⟩ =
          [(lit "Project", p), (lit "Task Summary", s),
           (lit "Tasks", tasksBlock ts), (lit "Priority", intToStr pr),
           (lit "Due Date", dd)] := by
        simp [sectionsFmt, h0, h1]
      rw [hsec]
      simp only [build_structured_payload_from_sections,
        show dictGet? [(lit "Project", p), (lit "Task Summary", s),
          (lit "Tasks", tasksBlock ts), (lit "Priority", intToStr pr),
          (lit "Due Date", dd)] (lit "Project") = some p from rfl,
        show dictGet? [(lit "Project", p), (lit "Task Summary", s),
          (lit "Tasks", tasksBlock ts), (lit "Priority", intToStr pr),
          (lit "Due Date", dd)] (lit "Task Summary") = some s from rfl,
        show dictGet? [(lit "Project", p), (lit "Task Summary", s),
          (lit "Tasks", tasksBlock ts), (lit "Priority", intToStr pr),
          (lit "Due Date", dd)] (lit "Tasks") = some (tasksBlock ts) from rfl,
        show dictGet? [(lit "Project", p), (lit "Task Summary", s),
          (lit "Tasks", tasksBlock ts), (lit "Priority", intToStr pr),
          (lit "Due Date", dd)] (lit "Priority") = some (intToStr pr) from rfl,
        show dictGet? [(lit "Project", p), (lit "Task Summary", s),
          (lit "Tasks", tasksBlock ts), (lit "Priority", intToStr pr),
          (lit "Due Date", dd)] (lit "Due Date") = some dd from rfl,
        show dictGet? [(lit "Project", p), (lit "Task Summary", s),
          (lit "Tasks", tasksBlock ts), (lit "Priority", intToStr pr),
          (lit "Due Date", dd)] (lit "Labels") = none from rfl,
        show strip_or_none none = (none : Option Str) from rfl,
        hsonP, hsonS, hsonPr, hsonD, htbne, hbt, htsne, hpriv]
      try simp [h0, h1]
    · have hlbne : lb ≠ [] := by
        cases lb with
        | nil => exact absurd rfl h1
        | cons a l => simp
      have hlab2 : literal_eval (pyStrOfStrList lb) = some (.list (lb.map PyScalar.str)) :=
        hlab.resolve_left hlbne
      have hlbclean := pyStrOfStrList_clean lb hlbNl
      have hmapid : (lb.map PyScalar.str).map pyStrOfScalar = lb := by
        rw [List.map_map,
          show (pyStrOfScalar ∘ PyScalar.str) = fun a : Str => a from rfl]
        simp
      have hsec : sectionsFmt ⟨p, s, ts, pr, dd, lb⟩ =
          [(lit "Project", p), (lit "Task Summary", s),
           (lit "Tasks", tasksBlock ts), (lit "Priority", intToStr pr),
           (lit "Due Date", dd), (lit "Labels", pyStrOfStrList lb)] := by
        simp [sectionsFmt, h0, h1]
      rw [hsec]
      simp only [build_structured_payload_from_sections,
        show dictGet? [(lit "Project", p), (lit "Task Summary", s),
          (lit "Tasks", tasksBlock ts), (lit "Priority", intToStr pr),
          (lit "Due Date", dd), (lit "Labels", pyStrOfStrList lb)] (lit "Project") = some p from rfl,
        show dictGet? [(lit "Project", p), (lit "Task Summary", s),
          (lit "Tasks", tasksBlock ts), (lit "Priority", intToStr pr),
          (lit "Due Date", dd), (lit "Labels", pyStrOfStrList lb)] (lit "Task Summary") = some s from rfl,
        show dictGet? [(lit "Project", p), (lit "Task Summary", s),
          (lit "Tasks", tasksBlock ts), (lit "Priority", intToStr pr),
          (lit "Due Date", dd), (lit "Labels", pyStrOfStrList lb)] (lit "Tasks") = some (tasksBlock ts) from rfl,
        show dictGet? [(lit "Project", p), (lit "Task Summary", s),
          (lit "Tasks", tasksBlock ts), (lit "Priority", intToStr pr),
          (lit "Due Date", dd), (lit "Labels", pyStrOfStrList lb)] (lit "Priority") = some (intToStr pr) from rfl,
        show dictGet? [(lit "Project", p), (lit "Task Summary", s),
          (lit "Tasks", tasksBlock ts), (lit "Priority", intToStr pr),
          (lit "Due Date", dd), (lit "Labels", pyStrOfStrList lb)] (lit "Due Date") = some dd from rfl,
        show dictGet? [(lit "Project", p), (lit "Task Summary", s),
          (lit "Tasks", tasksBlock ts), (lit "Priority", intToStr pr),
          (lit "Due Date", dd), (lit "Labels", pyStrOfStrList lb)] (lit "Labels") = some (pyStrOfStrList lb) from rfl,
        show strip_or_none none = (none : Option Str) from rfl,
        hsonP, hsonS, hsonPr, hsonD, htbne, hbt, htsne, hpriv]
      simp only [strip_or_none, strip_of_clean _ hlbclean,
        show (pyStrOfStrList lb).isEmpty = false from rfl, Bool.false_eq_true, if_false,
        buildLabels, hlab2, hmapid]
      try simp [h0, h1]

theorem runSubtasks_all_ok (client : Client) (account : AccountSettings) (content? : Option Str)
    (structured? : Option StructuredPayload) (project_id? : Option Str) (pid : Option Str)
    (ts : List Str)
    (h : ∀ t ∈ ts, ∃ r, client (subtaskRequestOf account content? structured? project_id? pid t) = .ok r) :
    runSubtasks client account content? structured? project_id? pid ts =
      (.ok (), ts.map (subtaskRequestOf account content? structured? project_id? pid)) := by
  induction ts with
  | nil => rfl
  | cons t ts ih =>
    obtain ⟨r, hr⟩ := h t (List.mem_cons_self t ts)
    simp only [runSubtasks, hr, ih (fun x hx => h x (List.mem_cons_of_mem t hx)), List.map_cons]

/-! ## Claims -/

/-- Claim C1 is false on the code: a single task line is not folded into the
parent description.  For `Tasks` = `- milk` with summary `Buy groceries`, the
route issues two client calls — a parent with content `Buy groceries` (not
`Buy groceries (milk)`) and one subtask `milk` — instead of one composed
parent and zero subtasks. -/
theorem claim_C1_counterexample :
    (create_todoist_task okClient sampleAccount (some contentBuyGroceries) none none).2.map
      (fun r => r.content) = [lit "Buy groceries", lit "milk"] ∧
    ¬ ((create_todoist_task okClient sampleAccount (some contentBuyGroceries) none none).2.map
      (fun r => r.content) = [lit "Buy groceries (milk)"]) := by
  decide

/-- Claim C1 (amended): for every submission whose Tasks section yields
exactly one subtask line, the parent task's content is the `Task Summary`
section alone (no composition with the single task), and — as in the
multi-line case — one subtask is created for that single line. -/
theorem claim_C1 (client : Client) (account : AccountSettings) (content? : Option Str)
    (structured? : Option StructuredPayload) (project_id? : Option Str)
    (task_summary t : Str) (rec rec2 : TaskRecord)
    (hTok : (account.todoist_api_token.getD []).isEmpty = false)
    (hC : (effectiveContent content?).isEmpty = false)
    (hP : ((explicitProjectId project_id?).isEmpty && (defaultProjectId account).isEmpty) = false)
    (hS : dictGet? (sectionsOf content?) (lit "Task Summary") = some task_summary)
    (hT : list_of_tasks (tasksSectionOf content?) = [t])
    (hParent : client (parentRequestOf account content? structured? project_id? task_summary) = .ok rec)
    (hSub : client (subtaskRequestOf account content? structured? project_id? rec.id t) = .ok rec2) :
    create_todoist_task client account content? structured? project_id? =
      (.ok rec (sectionsOf content?) (structuredOf content? structured? project_id?),
       [parentRequestOf account content? structured? project_id? task_summary,
        subtaskRequestOf account content? structured? project_id? rec.id t]) ∧
    (parentRequestOf account content? structured? project_id? task_summary).content = task_summary := by
  refine ⟨?_, rfl⟩
  simp only [create_todoist_task, hTok, hC, hP, hS, hParent, hT, Bool.false_eq_true, if_false,
    List.isEmpty_cons, runSubtasks, hSub]

/-- Witness for claim C1 at the `Buy groceries` fixture. -/
theorem claim_C1_witness :
    ((sampleAccount.todoist_api_token.getD []).isEmpty = false ∧
     (effectiveContent (some contentBuyGroceries)).isEmpty = false ∧
     dictGet? (sectionsOf (some contentBuyGroceries)) (lit "Task Summary") =
       some (lit "Buy groceries") ∧
     list_of_tasks (tasksSectionOf (some contentBuyGroceries)) = [lit "milk"]) ∧
    (create_todoist_task okClient sampleAccount (some contentBuyGroceries) none none =
      (.ok ⟨some (lit "77")⟩ (sectionsOf (some contentBuyGroceries))
        (structuredOf (some contentBuyGroceries) none none),
       [parentRequestOf sampleAccount (some contentBuyGroceries) none none (lit "Buy groceries"),
        subtaskRequestOf sampleAccount (some contentBuyGroceries) none none (some (lit "77"))
          (lit "milk")]) ∧
     (parentRequestOf sampleAccount (some contentBuyGroceries) none none
       (lit "Buy groceries")).content = lit "Buy groceries") :=
  ⟨⟨by decide, by decide, by decide, by decide⟩,
   claim_C1 okClient sampleAccount (some contentBuyGroceries) none none
     (lit "Buy groceries") (lit "milk") ⟨some (lit "77")⟩ ⟨some (lit "77")⟩
     (by decide) (by decide) (by decide) (by decide) (by decide) rfl rfl⟩

/-- Claim C2: if the parent-creation call fails, the failure propagates as
the mapped error outcome and the parent request is the only client call made
— zero subtask calls. -/
theorem claim_C2 (client : Client) (account : AccountSettings) (content? : Option Str)
    (structured? : Option StructuredPayload) (project_id? : Option Str)
    (task_summary : Str) (e : ApiFailure)
    (hTok : (account.todoist_api_token.getD []).isEmpty = false)
    (hC : (effectiveContent content?).isEmpty = false)
    (hP : ((explicitProjectId project_id?).isEmpty && (defaultProjectId account).isEmpty) = false)
    (hS : dictGet? (sectionsOf content?) (lit "Task Summary") = some task_summary)
    (hE : client (parentRequestOf account content? structured? project_id? task_summary) = .error e) :
    create_todoist_task client account content? structured? project_id? =
      (failureOutcome e, [parentRequestOf account content? structured? project_id? task_summary]) := by
  simp only [create_todoist_task, hTok, hC, hP, hS, hE, Bool.false_eq_true, if_false]

/-- Witness for claim C2 with an always-failing backend double. -/
theorem claim_C2_witness :
    ((sampleAccount.todoist_api_token.getD []).isEmpty = false ∧
     dictGet? (sectionsOf (some contentPlanTrip)) (lit "Task Summary") = some (lit "Plan trip")) ∧
    create_todoist_task failingClient sampleAccount (some contentPlanTrip) none none =
      (failureOutcome (.todoistError 403 (lit "Forbidden")),
       [parentRequestOf sampleAccount (some contentPlanTrip) none none (lit "Plan trip")]) :=
  ⟨⟨by decide, by decide⟩,
   claim_C2 failingClient sampleAccount (some contentPlanTrip) none none (lit "Plan trip")
     (.todoistError 403 (lit "Forbidden")) (by decide) (by decide) (by decide) (by decide) rfl⟩

/-- Claim C3 is false as stated: a suggestion whose fields contain no `!!`
and whose (empty) label list round-trips vacuously can still fail to
round-trip — a task with surrounding whitespace comes back trimmed.  For
`tasks = [" x"]` the rebuilt payload carries `tasks = ["x"]`. -/
theorem claim_C3_counterexample :
    (build_structured_payload_from_sections (split_content_into_dict
      (format_todo_suggestion_text sgPadded))).tasks = some [lit "x"] ∧
    some [lit "x"] ≠ some [lit " x"] := by
  decide

/-- Claim C3 (amended): for every Suggestion whose project, task summary, due
date and tasks are single-line and equal to their stripped forms, whose task
list is non-empty, whose priority lies in 1..4, whose labels are single-line,
and whose label list (when non-empty) round-trips through the literal
parser, `build(parse(format(s)))` reconstructs the equivalent
StructuredPayload: same project, task summary, tasks, priority as integer,
due date and labels, with empty-string fields mapping to absent keys. -/
theorem claim_C3 (sg : TodoSuggestion)
    (hp : cleanStr sg.project) (hs : cleanStr sg.task_summary)
    (hts : sg.tasks ≠ []) (htc : ∀ t ∈ sg.tasks, cleanStr t)
    (hdd : cleanStr sg.due_date)
    (hpr : 1 ≤ sg.priority ∧ sg.priority ≤ 4)
    (hlbNl : ∀ l ∈ sg.labels, '\n' ∉ l)
    (hlab : sg.labels = [] ∨
      literal_eval (pyStrOfStrList sg.labels) = some (.list (sg.labels.map PyScalar.str))) :
    build_structured_payload_from_sections (split_content_into_dict
      (format_todo_suggestion_text sg)) =
      { project := if sg.project.isEmpty then none else some sg.project,
        task_summary := if sg.task_summary.isEmpty then none else some sg.task_summary,
        tasks := some sg.tasks,
        priority := some (.int sg.priority),
        due_date := if sg.due_date.isEmpty then none else some sg.due_date,
        labels := if sg.labels.isEmpty then none else some sg.labels,
        project_id := none } := by
  obtain ⟨p, s, ts, pr, dd, lb⟩ := sg
  obtain ⟨hg1, hg2⟩ := hpr
  have hpric : cleanStr (intToStr pr) := by interval_cases pr <;> decide
  have hprine : intToStr pr ≠ [] := by interval_cases pr <;> decide
  have hpriv : pyInt? (intToStr pr) = some pr := by interval_cases pr <;> decide
  rw [parse_format ⟨p, s, ts, pr, dd, lb⟩ hp hs hts htc hdd hpric hlbNl]
  exact build_sectionsFmt ⟨p, s, ts, pr, dd, lb⟩ hp hs hts htc hdd hpric hprine hpriv hlbNl hlab

/-- Witness for claim C3 at a clean suggestion with every field populated. -/
theorem claim_C3_witness :
    (cleanStr sgWitness.project ∧ cleanStr sgWitness.task_summary ∧
     sgWitness.tasks ≠ [] ∧ (∀ t ∈ sgWitness.tasks, cleanStr t) ∧
     cleanStr sgWitness.due_date ∧ (1 ≤ sgWitness.priority ∧ sgWitness.priority ≤ 4) ∧
     (∀ l ∈ sgWitness.labels, '\n' ∉ l) ∧
     literal_eval (pyStrOfStrList sgWitness.labels) =
       some (.list (sgWitness.labels.map PyScalar.str))) ∧
    build_structured_payload_from_sections (split_content_into_dict
      (format_todo_suggestion_text sgWitness)) =
      { project := if sgWitness.project.isEmpty then none else some sgWitness.project,
        task_summary := if sgWitness.task_summary.isEmpty then none else some sgWitness.task_summary,
        tasks := some sgWitness.tasks,
        priority := some (.int sgWitness.priority),
        due_date := if sgWitness.due_date.isEmpty then none else some sgWitness.due_date,
        labels := if sgWitness.labels.isEmpty then none else some sgWitness.labels,
        project_id := none } :=
  ⟨⟨by decide, by decide, by decide, by decide, by decide, by decide, by decide, by decide⟩,
   claim_C3 sgWitness (by decide) (by decide) (by decide) (by decide) (by decide)
     (by decide) (by decide) (Or.inr (by decide))⟩

/-- Claim C4: when the Tasks section yields two or more subtask lines and
the backend accepts every request, the parent task's content is the task
summary alone and one subtask is created per yielded line, sequentially in
list order, each referencing the parent's backend-assigned id and carrying
the same project id, priority, due date and labels as the parent request. -/
theorem claim_C4 (client : Client) (account : AccountSettings) (content? : Option Str)
    (structured? : Option StructuredPayload) (project_id? : Option Str)
    (task_summary : Str) (rec : TaskRecord)
    (hTok : (account.todoist_api_token.getD []).isEmpty = false)
    (hC : (effectiveContent content?).isEmpty = false)
    (hP : ((explicitProjectId project_id?).isEmpty && (defaultProjectId account).isEmpty) = false)
    (hS : dictGet? (sectionsOf content?) (lit "Task Summary") = some task_summary)
    (hLen : 2 ≤ (list_of_tasks (tasksSectionOf content?)).length)
    (hParent : client (parentRequestOf account content? structured? project_id? task_summary) = .ok rec)
    (hSubs : ∀ t ∈ list_of_tasks (tasksSectionOf content?),
      ∃ r, client (subtaskRequestOf account content? structured? project_id? rec.id t) = .ok r) :
    create_todoist_task client account content? structured? project_id? =
      (.ok rec (sectionsOf content?) (structuredOf content? structured? project_id?),
       parentRequestOf account content? structured? project_id? task_summary ::
         (list_of_tasks (tasksSectionOf content?)).map
           (subtaskRequestOf account content? structured? project_id? rec.id)) ∧
    (parentRequestOf account content? structured? project_id? task_summary).content =
      task_summary ∧
    ∀ req ∈ (list_of_tasks (tasksSectionOf content?)).map
        (subtaskRequestOf account content? structured? project_id? rec.id),
      req.parent_id = rec.id ∧
      req.project_id = effectiveProjectId account project_id? ∧
      req.priority = (structuredOf content? structured? project_id?).priority ∧
      req.due_date = (structuredOf content? structured? project_id?).due_date ∧
      req.labels = (structuredOf content? structured? project_id?).labels := by
  refine ⟨?_, rfl, ?_⟩
  · have hne : (list_of_tasks (tasksSectionOf content?)).isEmpty = false := by
      cases hl : list_of_tasks (tasksSectionOf content?) with
      | nil => rw [hl] at hLen; simp at hLen
      | cons a l => rfl
    simp only [create_todoist_task, hTok, hC, hP, hS, hParent, hne, Bool.false_eq_true, if_false,
      runSubtasks_all_ok client account content? structured? project_id? rec.id _ hSubs]
  · intro req hreq
    obtain ⟨t, _, rfl⟩ := List.mem_map.mp hreq
    exact ⟨rfl, rfl, rfl, rfl, rfl⟩

/-- Witness for claim C4 at the `Plan trip` fixture with two subtask lines. -/
theorem claim_C4_witness :
    ((sampleAccount.todoist_api_token.getD []).isEmpty = false ∧
     dictGet? (sectionsOf (some contentPlanTrip)) (lit "Task Summary") = some (lit "Plan trip") ∧
     list_of_tasks (tasksSectionOf (some contentPlanTrip)) = [lit "book flight\n", lit "book hotel"] ∧
     2 ≤ (list_of_tasks (tasksSectionOf (some contentPlanTrip))).length) ∧
    create_todoist_task okClient sampleAccount (some contentPlanTrip) none none =
      (.ok ⟨some (lit "77")⟩ (sectionsOf (some contentPlanTrip))
        (structuredOf (some contentPlanTrip) none none),
       parentRequestOf sampleAccount (some contentPlanTrip) none none (lit "Plan trip") ::
         (list_of_tasks (tasksSectionOf (some contentPlanTrip))).map
           (subtaskRequestOf sampleAccount (some contentPlanTrip) none none (some (lit "77")))) :=
  ⟨⟨by decide, by decide, by decide, by decide⟩,
   (claim_C4 okClient sampleAccount (some contentPlanTrip) none none (lit "Plan trip")
     ⟨some (lit "77")⟩ (by decide) (by decide) (by decide) (by decide) (by decide) rfl
     (fun t _ => ⟨⟨some (lit "77")⟩, rfl⟩)).1⟩

/-- Claim C5: with a configured API token, the route fails with a 400
validation error and makes zero backend calls whenever the content is empty
after trimming, or neither an explicit project id nor an account default is
available. -/
theorem claim_C5 (client : Client) (account : AccountSettings) (content? : Option Str)
    (structured? : Option StructuredPayload) (project_id? : Option Str)
    (hTok : (account.todoist_api_token.getD []).isEmpty = false)
    (h : (effectiveContent content?).isEmpty = true ∨
      ((explicitProjectId project_id?).isEmpty = true ∧ (defaultProjectId account).isEmpty = true)) :
    outcomeStatus (create_todoist_task client account content? structured? project_id?).1 = 400 ∧
      (create_todoist_task client account content? structured? project_id?).2 = [] := by
  rcases h with h | ⟨h1, h2⟩
  · simp [create_todoist_task, hTok, h, outcomeStatus]
  · by_cases hc : (effectiveContent content?).isEmpty
    · simp [create_todoist_task, hTok, hc, outcomeStatus]
    · simp [create_todoist_task, hTok, hc, h1, h2, outcomeStatus]

/-- Witness for claim C5: no explicit project id and no account default. -/
theorem claim_C5_witness :
    ((noProjectAccount.todoist_api_token.getD []).isEmpty = false ∧
     (explicitProjectId none).isEmpty = true ∧ (defaultProjectId noProjectAccount).isEmpty = true) ∧
    (outcomeStatus (create_todoist_task okClient noProjectAccount (some contentPlanTrip)
        none none).1 = 400 ∧
      (create_todoist_task okClient noProjectAccount (some contentPlanTrip) none none).2 = []) :=
  ⟨⟨by decide, by decide, by decide⟩,
   claim_C5 okClient noProjectAccount (some contentPlanTrip) none none (by decide)
     (Or.inr ⟨by decide, by decide⟩)⟩

/-- Claim C6 is false on the code: neither the submit route nor the payload
builder falls back to the singular `Task` key.  A map holding only `Task`
yields an empty submit task list and an absent `tasks` key, unlike the
equivalent `Tasks` map. -/
theorem claim_C6_counterexample :
    (build_structured_payload_from_sections
      (split_content_into_dict contentTaskSingular)).tasks = none ∧
    (build_structured_payload_from_sections
      (split_content_into_dict contentTasksPlural)).tasks = some [lit "milk"] ∧
    list_of_tasks (tasksSectionOf (some contentTaskSingular)) = [] ∧
    list_of_tasks (tasksSectionOf (some contentTasksPlural)) = [lit "milk"] ∧
    (none : Option (List Str)) ≠ some [lit "milk"] := by
  decide

/-- Claim C6 (amended): there is no singular-`Task` fallback — both the
submit route's task-list extraction and the builder's `tasks` field consult
only the exact key `Tasks`; when it is absent the submit list is empty and
the `tasks` key is omitted, regardless of any `Task` entry. -/
theorem claim_C6 (secs : List (Str × Str))
    (h : dictGet? secs (lit "Tasks") = none) :
    (build_structured_payload_from_sections secs).tasks = none ∧
    list_of_tasks ((dictGet? secs (lit "Tasks")).getD []) = [] ∧
    (build_structured_payload_from_sections
      (split_content_into_dict contentTaskSingular)).tasks = none ∧
    list_of_tasks (tasksSectionOf (some contentTaskSingular)) = [] := by
  refine ⟨?_, ?_, by decide, by decide⟩
  · simp [build_structured_payload_from_sections, h]
  · rw [h]
    rfl

/-- Witness for claim C6 at a map holding only the singular `Task` key. -/
theorem claim_C6_witness :
    dictGet? [(lit "Task", lit "- milk")] (lit "Tasks") = none ∧
    ((build_structured_payload_from_sections [(lit "Task", lit "- milk")]).tasks = none ∧
     list_of_tasks ((dictGet? [(lit "Task", lit "- milk")] (lit "Tasks")).getD []) = [] ∧
     (build_structured_payload_from_sections
       (split_content_into_dict contentTaskSingular)).tasks = none ∧
     list_of_tasks (tasksSectionOf (some contentTaskSingular)) = []) :=
  ⟨by decide, claim_C6 [(lit "Task", lit "- milk")] (by decide)⟩

/-- Claim C7 is false on the code in its omission clause: raw Labels text
`[]` parses to the empty list literal, and the builder then stores a
present, empty `labels` list instead of omitting the key. -/
theorem claim_C7_counterexample :
    (build_structured_payload_from_sections [(lit "Labels", lit "[]")]).labels =
      some ([] : List Str) ∧
    some ([] : List Str) ≠ (none : Option (List Str)) := by
  decide

/-- Claim C7 (amended): for every non-empty trimmed Labels value the builder
first attempts a literal parse, each branch stated on the fragment where the
embedded `ast.literal_eval` is faithful to Python: a list result yields one
stringified label per element (an empty list yields a present, empty labels
list); a scalar result, or a tuple of plain printable-ASCII elements, is
wrapped as a single-element list of its string form; on parse failure —
asserted for quote-free identifier-led values such as `work, urgent`, which
Python likewise rejects as literals — the value is comma-split with each
piece trimmed and empty pieces dropped, and the labels key is omitted exactly
when that fallback result is empty.  In particular `['work', 'urgent']` and
`work, urgent` both give `[work, urgent]`, `('work', 'urgent')` gives the
single wrapped label `('work', 'urgent')`, an empty raw value gives no labels
key, and `[]` gives a present empty list. -/
theorem claim_C7 (secs : List (Str × Str)) (raw : Str)
    (hL : dictGet? secs (lit "Labels") = some raw)
    (hNE : (strip raw).isEmpty = false) :
    ((∀ xs, literal_eval (strip raw) = some (.list xs) →
       (build_structured_payload_from_sections secs).labels = some (xs.map pyStrOfScalar)) ∧
     (∀ v, literal_eval (strip raw) = some (.scalar v) →
       (build_structured_payload_from_sections secs).labels = some [pyStrOfScalar v]) ∧
     (∀ xs, literal_eval (strip raw) = some (.tuple xs) → xs.all plainScalar = true →
       (build_structured_payload_from_sections secs).labels =
         some [pyStrOfLit (.tuple xs)]) ∧
     (literal_eval (strip raw) = none → plainNameStart (strip raw) = true →
       (build_structured_payload_from_sections secs).labels =
         (if (commaSplitLabels (strip raw)).isEmpty then none
          else some (commaSplitLabels (strip raw))))) ∧
    ((build_structured_payload_from_sections [(lit "Labels", lit "['work', 'urgent']")]).labels =
       some [lit "work", lit "urgent"] ∧
     (build_structured_payload_from_sections [(lit "Labels", lit "work, urgent")]).labels =
       some [lit "work", lit "urgent"] ∧
     (build_structured_payload_from_sections
        [(lit "Labels", lit "('work', 'urgent')")]).labels =
       some [lit "('work', 'urgent')"] ∧
     (build_structured_payload_from_sections [(lit "Labels", lit "")]).labels = none ∧
     (build_structured_payload_from_sections [(lit "Labels", lit "[]")]).labels =
       some ([] : List Str)) := by
  have hlab : (build_structured_payload_from_sections secs).labels = buildLabels (strip raw) := by
    simp only [build_structured_payload_from_sections, hL, strip_or_none, hNE,
      Bool.false_eq_true, if_false]
  refine ⟨⟨?_, ?_, ?_, ?_⟩, by decide, by decide, by decide, by decide, by decide⟩
  · intro xs hxs
    rw [hlab]
    simp only [buildLabels, hxs]
  · intro v hv
    rw [hlab]
    simp only [buildLabels, hv, pyStrOfLit]
  · intro xs hxs _
    rw [hlab]
    simp only [buildLabels, hxs]
  · intro hnone _
    rw [hlab]
    simp only [buildLabels, hnone]

/-- Witness for claim C7 at the literal-list fixture. -/
theorem claim_C7_witness :
    (dictGet? [(lit "Labels", lit "['work', 'urgent']")] (lit "Labels") =
       some (lit "['work', 'urgent']") ∧
     (strip (lit "['work', 'urgent']")).isEmpty = false ∧
     literal_eval (strip (lit "['work', 'urgent']")) =
       some (.list [.str (lit "work"), .str (lit "urgent")])) ∧
    (build_structured_payload_from_sections [(lit "Labels", lit "['work', 'urgent']")]).labels =
      some ([.str (lit "work"), .str (lit "urgent")].map pyStrOfScalar) :=
  ⟨⟨by decide, by decide, by decide⟩,
   (claim_C7 [(lit "Labels", lit "['work', 'urgent']")] (lit "['work', 'urgent']")
     (by decide) (by decide)).1.1 [.str (lit "work"), .str (lit "urgent")] (by decide)⟩

/-- Claim C8: a later section overrides an earlier one wholesale — for any
lines prefixed before a suffix that starts with a header line, every key the
suffix alone binds keeps exactly the suffix's value (last occurrence wins,
bodies are never merged); concretely, duplicate key `A` in
`!!A!!: x … !!A!!: z` ends bound to `z`. -/
theorem claim_C8 (ls1 : List Str) (hd : Str) (tl : List Str) (k v : Str)
    (hh : (headerMatch? (strip hd)).isSome = true)
    (hv : dictGet? (parseLines (hd :: tl)) k = some v) :
    dictGet? (parseLines (ls1 ++ hd :: tl)) k = some v ∧
    split_content_into_dict (lit "!!A!!: x\n!!B!!: y\n!!A!!: z") =
      [(lit "A", lit "z"), (lit "B", lit "y")] := by
  refine ⟨?_, by decide⟩
  obtain ⟨⟨key, inline⟩, hm⟩ := Option.isSome_iff_exists.mp hh
  have hstand : parseLines (hd :: tl) =
      applyInserts [] (insertsOf tl (some (strip key)) (seedBuffer inline)) := by
    have hr := runLines_inserts (hd :: tl) initState
    simp only [parseLines]
    rw [hr]
    simp only [initState, insertsOf, hm, flushPairs, List.nil_append]
  have hlast : lastVal? (insertsOf tl (some (strip key)) (seedBuffer inline)) k = some v := by
    rw [hstand] at hv
    cases hl : lastVal? (insertsOf tl (some (strip key)) (seedBuffer inline)) k with
    | some w =>
      have h2 := applyInserts_get_some _ ([] : List (Str × Str)) k w hl
      rw [h2] at hv
      exact hv
    | none =>
      have h2 := applyInserts_get_none _ ([] : List (Str × Str)) k hl
      rw [h2] at hv
      simp [dictGet?] at hv
  have hcomb : parseLines (ls1 ++ hd :: tl) =
      applyInserts (runLines initState ls1).result
        (insertsOf (hd :: tl) (runLines initState ls1).current (runLines initState ls1).buffer) := by
    simp only [parseLines, runLines_append, runLines_inserts]
  rw [hcomb]
  simp only [insertsOf, hm]
  apply applyInserts_get_some
  rw [lastVal?_append, hlast]

/-- Witness for claim C8: prefixing an earlier `A` section before a later
one leaves `A` bound to the later body. -/
theorem claim_C8_witness :
    ((headerMatch? (strip (lit "!!A!!: z"))).isSome = true ∧
     dictGet? (parseLines [lit "!!A!!: z"]) (lit "A") = some (lit "z")) ∧
    (dictGet? (parseLines ([lit "!!A!!: x"] ++ [lit "!!A!!: z"])) (lit "A") = some (lit "z") ∧
     split_content_into_dict (lit "!!A!!: x\n!!B!!: y\n!!A!!: z") =
       [(lit "A", lit "z"), (lit "B", lit "y")]) :=
  ⟨⟨by decide, by decide⟩,
   claim_C8 [lit "!!A!!: x"] (lit "!!A!!: z") [] (lit "A") (lit "z") (by decide) (by decide)⟩

/-- Claim C9: with a token, non-empty content and an available project id,
a parsed section map lacking the `Task Summary` key makes the route fail
through the generic catch-all branch — HTTP 502 with the connectivity-style
message wrapping the `KeyError` — before any backend call is issued, and not
as a 400 validation error. -/
theorem claim_C9 (client : Client) (account : AccountSettings) (content? : Option Str)
    (structured? : Option StructuredPayload) (project_id? : Option Str)
    (hTok : (account.todoist_api_token.getD []).isEmpty = false)
    (hC : (effectiveContent content?).isEmpty = false)
    (hP : ((explicitProjectId project_id?).isEmpty && (defaultProjectId account).isEmpty) = false)
    (hS : dictGet? (sectionsOf content?) (lit "Task Summary") = none) :
    create_todoist_task client account content? structured? project_id? =
      (.error 502 (catchAllMsg (keyErrorRepr (lit "Task Summary"))), []) ∧
    outcomeStatus (create_todoist_task client account content? structured? project_id?).1 ≠ 400 := by
  have h : create_todoist_task client account content? structured? project_id? =
      (.error 502 (catchAllMsg (keyErrorRepr (lit "Task Summary"))), []) := by
    simp only [create_todoist_task, hTok, hC, hP, hS, Bool.false_eq_true, if_false]
  refine ⟨h, ?_⟩
  rw [h]
  decide

/-- Witness for claim C9 at content with no section headers at all. -/
theorem claim_C9_witness :
    ((sampleAccount.todoist_api_token.getD []).isEmpty = false ∧
     (effectiveContent (some (lit "hello"))).isEmpty = false ∧
     dictGet? (sectionsOf (some (lit "hello"))) (lit "Task Summary") = none) ∧
    (create_todoist_task okClient sampleAccount (some (lit "hello")) none none =
      (.error 502 (catchAllMsg (keyErrorRepr (lit "Task Summary"))), []) ∧
     outcomeStatus (create_todoist_task okClient sampleAccount (some (lit "hello"))
       none none).1 ≠ 400) :=
  ⟨⟨by decide, by decide, by decide⟩,
   claim_C9 okClient sampleAccount (some (lit "hello")) none none
     (by decide) (by decide) (by decide) (by decide)⟩

/-- Claim C10: the submit route splits the raw Tasks text on every `"- "`
occurrence (not line-anchored) and discards blank fragments, while the
payload builder works per line with one leading `-` stripped; an embedded
`"- "` therefore yields two subtasks where the builder sees one task, a
leading `-` without a space yields no split, and the number of subtasks the
route creates can differ from the length of the structured payload's task
list on the same input. -/
theorem claim_C10 :
    list_of_tasks (lit "- call mom - dad") = [lit "call mom ", lit "dad"] ∧
    buildTasks (lit "- call mom - dad") = [lit "call mom - dad"] ∧
    (list_of_tasks (lit "- call mom - dad")).length = 2 ∧
    (buildTasks (lit "- call mom - dad")).length = 1 ∧
    list_of_tasks (lit "-milk") = [lit "-milk"] ∧
    buildTasks (lit "-milk") = [lit "milk"] ∧
    buildTasks (lit "- a\n- b") = [lit "a", lit "b"] ∧
    (create_todoist_task okClient sampleAccount (some contentEmbeddedDash) none none).2.length = 3 ∧
    (structuredOf (some contentEmbeddedDash) none none).tasks = some [lit "call mom - dad"] := by
  decide

end TaskUploader
